import Mathlib

/-!
Shallow embedding of the logflux-js-sdk delivery pipeline:
the transport client (`src/client/index.ts`) and the batching client
(`src/client/batch.ts`), together with the configuration shapes from
`src/config/index.ts`.  Time (`Date.now()`) is passed explicitly as an
integer millisecond clock value; network outcomes are supplied by an
explicit environment so that the single-threaded event-loop semantics of
the TypeScript code becomes a deterministic function of state, clock and
environment.  The JS numbers involved (millisecond delays, timestamps,
the backoff multiplier) are modelled as integers with exact arithmetic;
`averageBatchSize`, a true ratio, is modelled as a rational.
-/

namespace LogFlux

/-- Network type of the transport, from `src/config/index.ts` (`NetworkType`). -/
inductive NetworkType where
  | unix
  | tcp
deriving DecidableEq, Repr

/-- A log entry, from `src/types/index.ts` (`interface LogEntry`).
Metadata is an insertion-ordered list of key/value string pairs, matching
`Object.entries` iteration order over a `Record<string, string>`. -/
structure LogEntry where
  version : Option String := none
  payload : String
  source : String
  timestamp : Option String := none
  payloadType : Option String := none
  metadata : Option (List (String × String)) := none
  entryType : Nat
  logLevel : Nat
deriving DecidableEq, Repr

/-- Batch configuration, from `src/config/index.ts` (`interface BatchConfig`).
Delay and multiplier fields are integer-valued JS numbers; optional fields
keep their optionality because `batch.ts` reads them through `??`
fallbacks. -/
structure BatchConfig where
  maxBatchSize : Nat
  flushInterval : ℤ
  maxMemoryUsage : Nat
  flushOnExit : Bool
  initialRetryDelay : Option ℤ := none
  maxRetryDelay : Option ℤ := none
  retryBackoffMultiplier : Option ℤ := none
  circuitBreakerFailureThreshold : Option Nat := none
  circuitBreakerOpenTimeout : Option ℤ := none
deriving DecidableEq, Repr

/-- `validateBatchConfig` from `src/config/index.ts`, as a predicate: the
conjunction of the checks in `validateBatchBasicConfig`,
`validateBatchRetryConfig` and `validateBatchCircuitBreakerConfig`
(`MIN_BATCH_SIZE = 1`, `MAX_BATCH_SIZE = 100`). -/
def ValidBatchConfig (cfg : BatchConfig) : Prop :=
  1 ≤ cfg.maxBatchSize ∧ cfg.maxBatchSize ≤ 100 ∧
  0 < cfg.flushInterval ∧ 0 < cfg.maxMemoryUsage ∧
  (∀ d ∈ cfg.initialRetryDelay, 0 < d) ∧
  (∀ d ∈ cfg.maxRetryDelay, 0 < d) ∧
  (∀ m ∈ cfg.retryBackoffMultiplier, 1 < m) ∧
  (∀ i ∈ cfg.initialRetryDelay, ∀ mx ∈ cfg.maxRetryDelay, i ≤ mx) ∧
  (∀ t ∈ cfg.circuitBreakerFailureThreshold, 0 < t) ∧
  (∀ t ∈ cfg.circuitBreakerOpenTimeout, 0 < t)

/-- Batch statistics, from `src/client/batch.ts` (`interface BatchStats`).
`lastFlushTime` holds the clock value of `new Date()` at the last
successful flush. -/
structure BatchStats where
  entriesProcessed : Nat
  batchesSent : Nat
  errors : Nat
  averageBatchSize : ℚ
  lastFlushTime : Option ℤ
deriving DecidableEq, Repr

/-- The private mutable state of a `BatchClient`
(`src/client/batch.ts`, fields of the class), plus `clientClosed`, which
mirrors the effect of `this.client.close()` on the wrapped transport. -/
structure BatchState where
  batch : List LogEntry
  stopped : Bool
  stats : BatchStats
  consecutiveFailures : Nat
  nextRetryDelay : ℤ
  circuitOpen : Bool
  circuitOpenTime : Option ℤ
  clientClosed : Bool
deriving DecidableEq, Repr

/-- UTF-8 byte length of a string (what `Buffer.byteLength(s, 'utf8')`
computes for a well-formed JS string): the sum of the UTF-8 sizes of its
characters. -/
def strBytes (s : String) : Nat :=
  (s.data.map Char.utf8Size).sum

/-- Estimated size of one entry, the per-entry summand of
`BatchClient.getEstimatedMemoryUsage`: a 200-byte base overhead, plus
`Buffer.byteLength(entry.payload, 'utf8')`, plus, for each metadata pair,
`Buffer.byteLength(key + value, 'utf8')`. -/
def entryEstimatedSize (e : LogEntry) : Nat :=
  200 + strBytes e.payload +
    (match e.metadata with
      | none => 0
      | some m => (m.map (fun kv => strBytes (kv.1 ++ kv.2))).sum)

/-- `BatchClient.getEstimatedMemoryUsage`: total estimated size of the
pending batch. -/
def getEstimatedMemoryUsage (batch : List LogEntry) : Nat :=
  (batch.map entryEstimatedSize).sum

/-- The spec's phrasing of the memory estimate ("the UTF-8 byte length of
the payload plus the UTF-8 byte lengths of all metadata keys and values",
plus the fixed 200-byte overhead), summing key and value lengths
separately instead of measuring the concatenation. -/
def entryEstimatedSizeSpec (e : LogEntry) : Nat :=
  200 + strBytes e.payload +
    (match e.metadata with
      | none => 0
      | some m => (m.map (fun kv => strBytes kv.1 + strBytes kv.2)).sum)

/-- Outcome of one `LogFluxClient.sendLogBatch` call as observed by
`BatchClient.flush`: the two validation throws happen before any
connection attempt; otherwise the call succeeds or fails according to the
environment's transport outcome. -/
inductive SendOutcome where
  | success
  | validationError
  | transportError
deriving DecidableEq, Repr

/-- `LogFluxClient.sendLogBatch` seen from `BatchClient.flush`: validates
`1 <= entries.length <= 100` first, then the network result is the
environment's `transportOk`. -/
def clientSend (entries : List LogEntry) (transportOk : Bool) : SendOutcome :=
  if entries.length = 0 then .validationError
  else if entries.length > 100 then .validationError
  else if transportOk then .success else .transportError

/-- `BatchClient.isCircuitOpen` (which lazily half-opens the circuit):
returns the gate value together with the possibly-updated state. -/
def isCircuitOpen (cfg : BatchConfig) (now : ℤ) (s : BatchState) :
    Bool × BatchState :=
  if s.circuitOpen = false then (false, s)
  else
    let openTimeout := cfg.circuitBreakerOpenTimeout.getD 10000
    match s.circuitOpenTime with
    | some t =>
        if now - t ≥ openTimeout then
          (false, { s with circuitOpen := false, circuitOpenTime := none })
        else (true, s)
    | none => (true, s)

/-- `BatchClient.openCircuit`: opens the circuit (stamping the current
time) when `consecutiveFailures` has reached the threshold. -/
def openCircuit (cfg : BatchConfig) (now : ℤ) (s : BatchState) : BatchState :=
  if s.consecutiveFailures ≥ cfg.circuitBreakerFailureThreshold.getD 5 then
    { s with circuitOpen := true, circuitOpenTime := some now }
  else s

/-- `BatchClient.calculateNextRetryDelay`:
`min(nextRetryDelay * multiplier, maxDelay)` with the `??` defaults of
`batch.ts` (multiplier 2, max delay 60000). -/
def calculateNextRetryDelay (cfg : BatchConfig) (d : ℤ) : ℤ :=
  min (d * cfg.retryBackoffMultiplier.getD 2) (cfg.maxRetryDelay.getD 60000)

/-- `BatchClient.updateAverageBatchSize`, called after `batchesSent` has
been incremented. -/
def updateAverageBatchSize (stats : BatchStats) (batchSize : Nat) : BatchStats :=
  let total := stats.averageBatchSize * ((stats.batchesSent : ℚ) - 1) + (batchSize : ℚ)
  { stats with averageBatchSize := total / (stats.batchesSent : ℚ) }

/-- Result of one `BatchClient.flush` call: the new state, the batch
handed to a successful `sendLogBatch` (if any), the number of entries
dropped by an open circuit (the count named in the `console.warn`), the
outcome of the `sendLogBatch` call when one was made, and whether `flush`
rethrew an error. -/
structure FlushResult where
  state : BatchState
  sent : Option (List LogEntry)
  dropped : Nat
  sendAttempt : Option SendOutcome
  threw : Bool
deriving DecidableEq, Repr

/-- `BatchClient.flush` at clock value `now`.  `transportOk` is the
environment's outcome for the network part of `sendLogBatch`; `during` is
the (possibly empty) list of entries appended by `addLogEntry` calls that
interleave with the awaited `sendLogBatch` — before the await the
code has already set `this.batch = []`, so such entries land in the fresh
buffer and a failing flush unshifts the drained batch in front of them. -/
def flush (cfg : BatchConfig) (now : ℤ) (transportOk : Bool)
    (during : List LogEntry) (s : BatchState) : FlushResult :=
  if s.batch = [] then ⟨s, none, 0, none, false⟩
  else
    match isCircuitOpen cfg now s with
    | (true, s1) => ⟨{ s1 with batch := [] }, none, s1.batch.length, none, false⟩
    | (false, s1) =>
        let batchToSend := s1.batch
        let s2 := { s1 with batch := during }
        match clientSend batchToSend transportOk with
        | .success =>
            let statsA := { s2.stats with batchesSent := s2.stats.batchesSent + 1 }
            let statsB := { statsA with lastFlushTime := some now }
            let statsC := updateAverageBatchSize statsB batchToSend.length
            let sA := { s2 with consecutiveFailures := 0 }
            let sB := { sA with nextRetryDelay := cfg.initialRetryDelay.getD 1000 }
            let sC := { sB with stats := statsC }
            ⟨sC, some batchToSend, 0, some .success, false⟩
        | outcome =>
            let statsE := { s2.stats with errors := s2.stats.errors + 1 }
            let s3a := { s2 with stats := statsE }
            let s3 := { s3a with consecutiveFailures := s3a.consecutiveFailures + 1 }
            let s4 := { s3 with nextRetryDelay := calculateNextRetryDelay cfg s3.nextRetryDelay }
            let s5 := openCircuit cfg now s4
            ⟨{ s5 with batch := batchToSend ++ s5.batch }, none, 0, some outcome, true⟩

/-- Result of one `BatchClient.addLogEntry` call that was not rejected by
the stopped guard: the flush result (trivial when no flush was triggered)
plus whether a flush was triggered at all. -/
structure AddResult where
  state : BatchState
  sent : Option (List LogEntry)
  dropped : Nat
  sendAttempt : Option SendOutcome
  threw : Bool
  flushTriggered : Bool
deriving DecidableEq, Repr

/-- `BatchClient.addLogEntry`: throws (`Except.error`) when stopped;
otherwise pushes the entry, bumps `entriesProcessed`, and flushes when the
pending count has reached `maxBatchSize` or the estimated memory usage has
reached `maxMemoryUsage`. -/
def addLogEntry (cfg : BatchConfig) (now : ℤ) (transportOk : Bool)
    (during : List LogEntry) (e : LogEntry) (s : BatchState) :
    Except Unit AddResult :=
  if s.stopped then .error ()
  else
    let s1 := { s with
      batch := s.batch ++ [e],
      stats := { s.stats with entriesProcessed := s.stats.entriesProcessed + 1 } }
    if s1.batch.length ≥ cfg.maxBatchSize then
      let r := flush cfg now transportOk during s1
      .ok ⟨r.state, r.sent, r.dropped, r.sendAttempt, r.threw, true⟩
    else if getEstimatedMemoryUsage s1.batch ≥ cfg.maxMemoryUsage then
      let r := flush cfg now transportOk during s1
      .ok ⟨r.state, r.sent, r.dropped, r.sendAttempt, r.threw, true⟩
    else
      .ok ⟨s1, none, 0, none, false, false⟩

/-- Result of `BatchClient.stop`: the final state, the batch delivered by
the shutdown flush (if any), the entries it dropped, and whether the
swallowed shutdown flush threw (it is logged, never rethrown, so `stop`
itself always completes). -/
structure StopResult where
  state : BatchState
  sent : Option (List LogEntry)
  dropped : Nat
  flushThrew : Bool
deriving DecidableEq, Repr

/-- `BatchClient.stop`: sets the stopped flag, cancels the timer and exit
hooks (scheduling concerns outside this state), flushes once if the
buffer is non-empty swallowing any error, then closes the transport.
Once the stopped flag is set no `addLogEntry` can append, so the
shutdown flush sees no interleaved additions. -/
def stop (cfg : BatchConfig) (now : ℤ) (transportOk : Bool)
    (s : BatchState) : StopResult :=
  let s1 := { s with stopped := true }
  if s1.batch = [] then ⟨{ s1 with clientClosed := true }, none, 0, false⟩
  else
    let r := flush cfg now transportOk [] s1
    ⟨{ r.state with clientClosed := true }, r.sent, r.dropped, r.threw⟩

/-- The statistics of a freshly constructed `BatchClient`. -/
def initialStats : BatchStats :=
  { entriesProcessed := 0, batchesSent := 0, errors := 0,
    averageBatchSize := 0, lastFlushTime := none }

/-- The state of a freshly constructed `BatchClient` (constructor of
`src/client/batch.ts`): empty buffer, not stopped, zero stats, backoff
delay initialised to `initialRetryDelay ?? 1000`, circuit closed. -/
def initialState (cfg : BatchConfig) : BatchState :=
  { batch := [], stopped := false, stats := initialStats,
    consecutiveFailures := 0,
    nextRetryDelay := cfg.initialRetryDelay.getD 1000,
    circuitOpen := false, circuitOpenTime := none, clientClosed := false }

/-- One externally observable event in a `BatchClient` run: an
`addLogEntry` call or an explicit `flush` call, each carrying the clock
value at which it runs, the environment's transport outcome for the flush
it performs (if any), and the entries appended while that flush awaits
the network. -/
inductive BatchEv where
  | add (e : LogEntry) (now : ℤ) (transportOk : Bool) (during : List LogEntry)
  | flushCall (now : ℤ) (transportOk : Bool) (during : List LogEntry)
deriving DecidableEq, Repr

/-- Accumulated observations of a `BatchClient` run: final state, the
batches delivered by successful sends in send order, the total number of
dropped entries, and the entries accepted into the buffer in acceptance
order. -/
structure RunResult where
  state : BatchState
  sent : List (List LogEntry)
  dropped : Nat
  accepted : List LogEntry
deriving DecidableEq, Repr

/-- Entries consumed by a flush's await window: the `during` entries are
appended exactly when the flush actually drained the buffer and performed
a send attempt (successful or thrown); an empty-buffer return or a
circuit-open drop never awaits. -/
def consumedDuring (r : FlushResult) (during : List LogEntry) : List LogEntry :=
  if r.sendAttempt.isSome then during else []

/-- One step of a `BatchClient` run. -/
def runStep (cfg : BatchConfig) (acc : RunResult) (ev : BatchEv) : RunResult :=
  match ev with
  | .add e now transportOk during =>
      match addLogEntry cfg now transportOk during e acc.state with
      | .error _ => acc
      | .ok r =>
          { state := r.state,
            sent := acc.sent ++ r.sent.toList,
            dropped := acc.dropped + r.dropped,
            accepted := acc.accepted ++ [e] ++
              (if r.sendAttempt.isSome then during else []) }
  | .flushCall now transportOk during =>
      let r := flush cfg now transportOk during acc.state
      { state := r.state,
        sent := acc.sent ++ r.sent.toList,
        dropped := acc.dropped + r.dropped,
        accepted := acc.accepted ++
          (if r.sendAttempt.isSome then during else []) }

/-- A complete `BatchClient` run from the freshly constructed state. -/
def run (cfg : BatchConfig) (evs : List BatchEv) : RunResult :=
  evs.foldl (runStep cfg) ⟨initialState cfg, [], 0, []⟩

/-! ## Transport client (`src/client/index.ts`) -/

/-- Errors thrown by `LogFluxClient` operations. -/
inductive ClientError where
  | connectionFailed
  | sendFailed
  | validationEmpty
  | validationTooMany
  | sharedSecretRequired
deriving DecidableEq, Repr

/-- Outcome of the single awaited `socket.once('data', ...)` read in
`LogFluxClient.readResponse`: no data within the window, data that is not
valid JSON, or a parsed response.  A parsed response is `none` for JSON
`null` and otherwise carries the optional `status` field. -/
inductive ReadOutcome where
  | timeout
  | badJson
  | response (resp : Option (Option String))
deriving DecidableEq, Repr

/-- The environment's outcomes for the network actions an operation may
take: whether a `connect()` attempt succeeds, whether the socket write in
`sendData` succeeds, and what `readResponse` observes. -/
structure NetWorld where
  connectOk : Bool
  sendOk : Bool
  readOutcome : ReadOutcome
deriving DecidableEq, Repr

/-- The state of a `LogFluxClient`: its configured network type, the
configured shared secret (`Config.sharedSecret`, where JS treats the
empty string as missing), and the connected flag. -/
structure ClientState where
  network : NetworkType
  sharedSecret : Option String := none
  connected : Bool := false
deriving DecidableEq, Repr

/-- The `if (!this.connected) await this.connect()` preamble shared by the
send/ping/authenticate paths: a no-op when connected, otherwise an
attempted connection that throws `ConnectionError` on failure. -/
def connectIfNeeded (st : ClientState) (w : NetWorld) :
    Except ClientError ClientState :=
  if st.connected then .ok st
  else if w.connectOk then .ok { st with connected := true }
  else .error .connectionFailed

/-- The `Boolean(response && response.status === 'pong')` check of
`LogFluxClient.ping`. -/
def responseIsPong : ReadOutcome → Bool
  | .response (some (some "pong")) => true
  | _ => false

/-- The `Boolean(response && response.status === 'success')` check of
`LogFluxClient.authenticate`. -/
def responseIsSuccess : ReadOutcome → Bool
  | .response (some (some "success")) => true
  | _ => false

/-- `LogFluxClient.ping`: connects if needed (outside the try block), then
inside the try sends a ping request and reads one response, returning
whether the response status is `"pong"`; errors thrown inside the try are
swallowed into `false`. -/
def ping (st : ClientState) (w : NetWorld) :
    Except ClientError Bool × ClientState :=
  match connectIfNeeded st w with
  | .error e => (.error e, st)
  | .ok st1 =>
      if w.sendOk = false then (.ok false, st1)
      else
        match w.readOutcome with
        | .timeout => (.ok false, st1)
        | .badJson => (.ok false, st1)
        | r => (.ok (responseIsPong r), st1)

/-- `LogFluxClient.authenticate`: returns `true` for non-TCP transports
without touching the network; for TCP it requires a (truthy, hence
non-empty) shared secret, throwing otherwise before any network call;
then it connects if needed (outside the try block), sends the auth
request and reads one response inside the try, swallowing errors thrown
there into `false`.  The second component reports whether any network
action (connect or send) was attempted. -/
def authenticate (st : ClientState) (w : NetWorld) :
    Except ClientError Bool × ClientState × Bool :=
  if st.network ≠ NetworkType.tcp then (.ok true, st, false)
  else if st.sharedSecret.getD "" = "" then (.error .sharedSecretRequired, st, false)
  else
    match connectIfNeeded st w with
    | .error e => (.error e, st, true)
    | .ok st1 =>
        if w.sendOk = false then (.ok false, st1, true)
        else
          match w.readOutcome with
          | .timeout => (.ok false, st1, true)
          | .badJson => (.ok false, st1, true)
          | r => (.ok (responseIsSuccess r), st1, true)

/-- Observable actions of one `LogFluxClient.sendLogBatch` call:
whether a connection attempt was made and whether a socket write was
attempted. -/
structure SendTrace where
  connectAttempted : Bool
  writeAttempted : Bool
deriving DecidableEq, Repr

/-- `LogFluxClient.sendLogBatch`: validates the 1..100 size contract
before any connection attempt, then connects if needed and writes the
serialized batch. -/
def sendLogBatch (st : ClientState) (entries : List LogEntry) (w : NetWorld) :
    Except ClientError Unit × ClientState × SendTrace :=
  if entries.length = 0 then (.error .validationEmpty, st, ⟨false, false⟩)
  else if entries.length > 100 then (.error .validationTooMany, st, ⟨false, false⟩)
  else
    match connectIfNeeded st w with
    | .error e => (.error e, st, ⟨true, false⟩)
    | .ok st1 =>
        if w.sendOk then (.ok (), st1, ⟨st.connected = false, true⟩)
        else (.error .sendFailed, st1, ⟨st.connected = false, true⟩)

/-! ## Basic lemmas about the circuit gate and `flush` -/

/-- Effective circuit-breaker failure threshold
(`circuitBreakerFailureThreshold ?? 5`). -/
def thresholdEff (cfg : BatchConfig) : Nat :=
  cfg.circuitBreakerFailureThreshold.getD 5

/-- Effective initial retry delay (`initialRetryDelay ?? 1000` as read in
`flush` and the constructor). -/
def initialDelayEff (cfg : BatchConfig) : ℤ :=
  cfg.initialRetryDelay.getD 1000

/-- Effective maximum retry delay (`maxRetryDelay ?? 60000` as read in
`calculateNextRetryDelay`). -/
def maxDelayEff (cfg : BatchConfig) : ℤ :=
  cfg.maxRetryDelay.getD 60000

/-- Effective backoff multiplier (`retryBackoffMultiplier ?? 2`). -/
def multiplierEff (cfg : BatchConfig) : ℤ :=
  cfg.retryBackoffMultiplier.getD 2

theorem isCircuitOpen_fst_true {cfg : BatchConfig} {now : ℤ} {s : BatchState}
    (h : (isCircuitOpen cfg now s).1 = true) :
    isCircuitOpen cfg now s = (true, s) := by
  unfold isCircuitOpen at *
  by_cases ho : s.circuitOpen = false
  · simp [ho] at h
  · simp only [ho, if_false] at *
    cases hot : s.circuitOpenTime with
    | none => simp [hot]
    | some t =>
        simp only [hot] at h ⊢
        by_cases hlt : now - t ≥ cfg.circuitBreakerOpenTimeout.getD 10000
        · simp [hlt] at h
        · simp [hlt]

theorem isCircuitOpen_fst_false {cfg : BatchConfig} {now : ℤ} {s : BatchState}
    (h : (isCircuitOpen cfg now s).1 = false) :
    ((isCircuitOpen cfg now s).2.circuitOpen = false ∧
      (isCircuitOpen cfg now s).2.batch = s.batch ∧
      (isCircuitOpen cfg now s).2.stopped = s.stopped ∧
      (isCircuitOpen cfg now s).2.stats = s.stats ∧
      (isCircuitOpen cfg now s).2.consecutiveFailures = s.consecutiveFailures ∧
      (isCircuitOpen cfg now s).2.nextRetryDelay = s.nextRetryDelay ∧
      (isCircuitOpen cfg now s).2.clientClosed = s.clientClosed) := by
  unfold isCircuitOpen at *
  by_cases ho : s.circuitOpen = false
  · simp [ho]
  · simp only [ho, if_false] at *
    cases hot : s.circuitOpenTime with
    | none => simp [hot] at h
    | some t =>
        simp only [hot] at h ⊢
        by_cases hlt : now - t ≥ cfg.circuitBreakerOpenTimeout.getD 10000
        · simp [hlt]
        · simp [hlt] at h

theorem flush_empty (cfg : BatchConfig) (now : ℤ) (transportOk : Bool)
    (during : List LogEntry) (s : BatchState) (h : s.batch = []) :
    flush cfg now transportOk during s = ⟨s, none, 0, none, false⟩ := by
  unfold flush
  simp [h]

theorem flush_drop (cfg : BatchConfig) (now : ℤ) (transportOk : Bool)
    (during : List LogEntry) (s : BatchState) (hb : s.batch ≠ [])
    (ho : (isCircuitOpen cfg now s).1 = true) :
    flush cfg now transportOk during s =
      ⟨{ s with batch := [] }, none, s.batch.length, none, false⟩ := by
  unfold flush
  rw [if_neg hb, isCircuitOpen_fst_true ho]

theorem flush_success_fields (cfg : BatchConfig) (now : ℤ) (transportOk : Bool)
    (during : List LogEntry) (s : BatchState) (hb : s.batch ≠ [])
    (hgate : (isCircuitOpen cfg now s).1 = false)
    (hsend : clientSend s.batch transportOk = .success) :
    (flush cfg now transportOk during s).sent = some s.batch ∧
    (flush cfg now transportOk during s).threw = false ∧
    (flush cfg now transportOk during s).dropped = 0 ∧
    (flush cfg now transportOk during s).sendAttempt = some .success ∧
    (flush cfg now transportOk during s).state.batch = during ∧
    (flush cfg now transportOk during s).state.consecutiveFailures = 0 ∧
    (flush cfg now transportOk during s).state.nextRetryDelay = initialDelayEff cfg ∧
    (flush cfg now transportOk during s).state.circuitOpen = false ∧
    (flush cfg now transportOk during s).state.stats.batchesSent = s.stats.batchesSent + 1 ∧
    (flush cfg now transportOk during s).state.stats.lastFlushTime = some now ∧
    (flush cfg now transportOk during s).state.stats.entriesProcessed = s.stats.entriesProcessed ∧
    (flush cfg now transportOk during s).state.stats.errors = s.stats.errors ∧
    (flush cfg now transportOk during s).state.stopped = s.stopped ∧
    (flush cfg now transportOk during s).state.clientClosed = s.clientClosed := by
  have hpair : isCircuitOpen cfg now s = (false, (isCircuitOpen cfg now s).2) := by
    rw [← hgate]
  obtain ⟨ho1, hb1, hst1, hstats1, hcf1, hd1, hc1⟩ := isCircuitOpen_fst_false hgate
  unfold flush
  rw [if_neg hb, hpair]
  simp only [hb1, hsend, hst1, hstats1, hc1, initialDelayEff, updateAverageBatchSize]
  simp [ho1]

theorem flush_fail_fields (cfg : BatchConfig) (now : ℤ) (transportOk : Bool)
    (during : List LogEntry) (s : BatchState) (hb : s.batch ≠ [])
    (hgate : (isCircuitOpen cfg now s).1 = false)
    (hsend : clientSend s.batch transportOk ≠ .success) :
    (flush cfg now transportOk during s).sent = none ∧
    (flush cfg now transportOk during s).threw = true ∧
    (flush cfg now transportOk during s).dropped = 0 ∧
    (flush cfg now transportOk during s).sendAttempt = some (clientSend s.batch transportOk) ∧
    (flush cfg now transportOk during s).state.batch = s.batch ++ during ∧
    (flush cfg now transportOk during s).state.consecutiveFailures = s.consecutiveFailures + 1 ∧
    (flush cfg now transportOk during s).state.nextRetryDelay
      = calculateNextRetryDelay cfg s.nextRetryDelay ∧
    (flush cfg now transportOk during s).state.stats.errors = s.stats.errors + 1 ∧
    (flush cfg now transportOk during s).state.stats.entriesProcessed = s.stats.entriesProcessed ∧
    (flush cfg now transportOk during s).state.stats.batchesSent = s.stats.batchesSent ∧
    (flush cfg now transportOk during s).state.stats.lastFlushTime = s.stats.lastFlushTime ∧
    (flush cfg now transportOk during s).state.stats.averageBatchSize
      = s.stats.averageBatchSize ∧
    (flush cfg now transportOk during s).state.stopped = s.stopped ∧
    (flush cfg now transportOk during s).state.clientClosed = s.clientClosed ∧
    ((flush cfg now transportOk during s).state.circuitOpen = true
      ↔ s.consecutiveFailures + 1 ≥ thresholdEff cfg) ∧
    (s.consecutiveFailures + 1 ≥ thresholdEff cfg →
      (flush cfg now transportOk during s).state.circuitOpenTime = some now) := by
  have hpair : isCircuitOpen cfg now s = (false, (isCircuitOpen cfg now s).2) := by
    rw [← hgate]
  obtain ⟨ho1, hb1, hst1, hstats1, hcf1, hd1, hc1⟩ := isCircuitOpen_fst_false hgate
  unfold flush
  rw [if_neg hb, hpair]
  cases hcs : clientSend s.batch transportOk with
  | success => exact absurd hcs hsend
  | validationError =>
      simp only [hb1, hcs, openCircuit, thresholdEff, hstats1, hcf1, hd1, hst1, hc1, ho1]
      by_cases hth : s.consecutiveFailures + 1 ≥ cfg.circuitBreakerFailureThreshold.getD 5
      · simp [hth, hstats1, hcf1, hd1, hst1, hc1]
      · simp [hth, hstats1, hcf1, hd1, hst1, hc1, ho1]
  | transportError =>
      simp only [hb1, hcs, openCircuit, thresholdEff, hstats1, hcf1, hd1, hst1, hc1, ho1]
      by_cases hth : s.consecutiveFailures + 1 ≥ cfg.circuitBreakerFailureThreshold.getD 5
      · simp [hth, hstats1, hcf1, hd1, hst1, hc1]
      · simp [hth, hstats1, hcf1, hd1, hst1, hc1, ho1]

/-- Case split mirroring the branch structure of `flush`. -/
theorem flush_case_split (cfg : BatchConfig) (now : ℤ) (transportOk : Bool)
    (s : BatchState) :
    s.batch = [] ∨
    (s.batch ≠ [] ∧ (isCircuitOpen cfg now s).1 = true) ∨
    (s.batch ≠ [] ∧ (isCircuitOpen cfg now s).1 = false ∧
      clientSend s.batch transportOk = .success) ∨
    (s.batch ≠ [] ∧ (isCircuitOpen cfg now s).1 = false ∧
      clientSend s.batch transportOk ≠ .success) := by
  by_cases hb : s.batch = []
  · exact Or.inl hb
  · by_cases hgate : (isCircuitOpen cfg now s).1 = true
    · exact Or.inr (Or.inl ⟨hb, hgate⟩)
    · have hgate' : (isCircuitOpen cfg now s).1 = false := by simpa using hgate
      by_cases hcs : clientSend s.batch transportOk = .success
      · exact Or.inr (Or.inr (Or.inl ⟨hb, hgate', hcs⟩))
      · exact Or.inr (Or.inr (Or.inr ⟨hb, hgate', hcs⟩))

/-- The circuit invariant: whenever the circuit-open flag is set, the
consecutive-failure count has reached the effective threshold. -/
def CInv (cfg : BatchConfig) (s : BatchState) : Prop :=
  s.circuitOpen = true → s.consecutiveFailures ≥ thresholdEff cfg

theorem cInv_flush (cfg : BatchConfig) (now : ℤ) (transportOk : Bool)
    (during : List LogEntry) (s : BatchState) (h : CInv cfg s) :
    CInv cfg (flush cfg now transportOk during s).state := by
  rcases flush_case_split cfg now transportOk s with hb | ⟨hb, hgate⟩ |
      ⟨hb, hgate, hcs⟩ | ⟨hb, hgate, hcs⟩
  · rw [flush_empty cfg now transportOk during s hb]; exact h
  · rw [flush_drop cfg now transportOk during s hb hgate]
    intro ho; exact h ho
  · obtain ⟨-, -, -, -, -, hcf, -, ho, -⟩ :=
      flush_success_fields cfg now transportOk during s hb hgate hcs
    intro hx; rw [ho] at hx; exact absurd hx (by simp)
  · obtain ⟨-, -, -, -, -, hcf, -, -, -, -, -, -, -, -, hiff, -⟩ :=
      flush_fail_fields cfg now transportOk during s hb hgate hcs
    intro hx; rw [hcf]; exact hiff.mp hx

/-- The buffer/counter update performed by `addLogEntry` before its
threshold checks: `this.batch.push(entry); this.stats.entriesProcessed++`. -/
def pushState (e : LogEntry) (s : BatchState) : BatchState :=
  let stats1 := { s.stats with entriesProcessed := s.stats.entriesProcessed + 1 }
  { s with batch := s.batch ++ [e], stats := stats1 }

theorem addLogEntry_stopped_eq (cfg : BatchConfig) (now : ℤ) (transportOk : Bool)
    (during : List LogEntry) (e : LogEntry) (s : BatchState)
    (h : s.stopped = true) :
    addLogEntry cfg now transportOk during e s = .error () := by
  unfold addLogEntry
  rw [if_pos h]

theorem addLogEntry_trigger_eq (cfg : BatchConfig) (now : ℤ) (transportOk : Bool)
    (during : List LogEntry) (e : LogEntry) (s : BatchState)
    (h : s.stopped = false)
    (hcond : (s.batch ++ [e]).length ≥ cfg.maxBatchSize ∨
      getEstimatedMemoryUsage (s.batch ++ [e]) ≥ cfg.maxMemoryUsage) :
    addLogEntry cfg now transportOk during e s =
      .ok ⟨(flush cfg now transportOk during (pushState e s)).state,
        (flush cfg now transportOk during (pushState e s)).sent,
        (flush cfg now transportOk during (pushState e s)).dropped,
        (flush cfg now transportOk during (pushState e s)).sendAttempt,
        (flush cfg now transportOk during (pushState e s)).threw, true⟩ := by
  unfold addLogEntry
  rw [if_neg (by simp [h])]
  by_cases h1 : (s.batch ++ [e]).length ≥ cfg.maxBatchSize
  · rw [if_pos h1]
    rfl
  · rw [if_neg h1]
    rcases hcond with hc | hc
    · exact absurd hc h1
    · rw [if_pos hc]
      rfl

theorem addLogEntry_noTrigger_eq (cfg : BatchConfig) (now : ℤ) (transportOk : Bool)
    (during : List LogEntry) (e : LogEntry) (s : BatchState)
    (h : s.stopped = false)
    (h1 : ¬((s.batch ++ [e]).length ≥ cfg.maxBatchSize))
    (h2 : ¬(getEstimatedMemoryUsage (s.batch ++ [e]) ≥ cfg.maxMemoryUsage)) :
    addLogEntry cfg now transportOk during e s =
      .ok ⟨pushState e s, none, 0, none, false, false⟩ := by
  unfold addLogEntry
  rw [if_neg (by simp [h]), if_neg h1, if_neg h2]
  rfl

theorem cInv_addLogEntry (cfg : BatchConfig) (now : ℤ) (transportOk : Bool)
    (during : List LogEntry) (e : LogEntry) (s : BatchState) (r : AddResult)
    (h : CInv cfg s) (hr : addLogEntry cfg now transportOk during e s = .ok r) :
    CInv cfg r.state := by
  have hpush : CInv cfg (pushState e s) := by
    intro hx
    exact h hx
  by_cases hst : s.stopped = true
  · rw [addLogEntry_stopped_eq cfg now transportOk during e s hst] at hr
    cases hr
  · have hst' : s.stopped = false := by simpa using hst
    by_cases hcond : (s.batch ++ [e]).length ≥ cfg.maxBatchSize ∨
        getEstimatedMemoryUsage (s.batch ++ [e]) ≥ cfg.maxMemoryUsage
    · rw [addLogEntry_trigger_eq cfg now transportOk during e s hst' hcond] at hr
      cases hr
      exact cInv_flush cfg now transportOk during (pushState e s) hpush
    · push_neg at hcond
      rw [addLogEntry_noTrigger_eq cfg now transportOk during e s hst'
        (by omega) (by omega)] at hr
      cases hr
      exact hpush

theorem cInv_runStep (cfg : BatchConfig) (acc : RunResult) (ev : BatchEv)
    (h : CInv cfg acc.state) : CInv cfg (runStep cfg acc ev).state := by
  cases ev with
  | add e now transportOk during =>
      simp only [runStep]
      cases hr : addLogEntry cfg now transportOk during e acc.state with
      | error u => exact h
      | ok r => exact cInv_addLogEntry cfg now transportOk during e acc.state r h hr
  | flushCall now transportOk during =>
      simp only [runStep]
      exact cInv_flush cfg now transportOk during acc.state h

theorem cInv_foldl (cfg : BatchConfig) (evs : List BatchEv) (acc : RunResult)
    (h : CInv cfg acc.state) :
    CInv cfg (List.foldl (runStep cfg) acc evs).state := by
  induction evs generalizing acc with
  | nil => exact h
  | cons ev rest ih =>
      exact ih (runStep cfg acc ev) (cInv_runStep cfg acc ev h)

/-- Claim C2: once `consecutiveFailures` has reached the effective
threshold immediately after a failed flush, the circuit is open with its
open time stamped `now`; every flush of a non-empty batch before the open
timeout has elapsed since opening empties the pending batch without
invoking the transport and without restoring the entries; a flush of a
non-empty batch at or after the timeout closes the circuit and is allowed
through as a normal send attempt (half-open probe), reopening the circuit
if that attempt fails; and in every run the open flag entails that the
failure count has reached the threshold (so a half-open probe failure
always reopens). -/
theorem circuit_breaker (cfg : BatchConfig) :
    (∀ (now : ℤ) (transportOk : Bool) (during : List LogEntry) (s : BatchState),
      (flush cfg now transportOk during s).threw = true →
      (flush cfg now transportOk during s).state.consecutiveFailures ≥ thresholdEff cfg →
      (flush cfg now transportOk during s).state.circuitOpen = true ∧
      (flush cfg now transportOk during s).state.circuitOpenTime = some now) ∧
    (∀ (now : ℤ) (transportOk : Bool) (during : List LogEntry) (s : BatchState),
      s.batch ≠ [] → s.circuitOpen = true →
      (∀ t ∈ s.circuitOpenTime, now - t < cfg.circuitBreakerOpenTimeout.getD 10000) →
      flush cfg now transportOk during s =
        ⟨{ s with batch := [] }, none, s.batch.length, none, false⟩) ∧
    (∀ (now : ℤ) (transportOk : Bool) (during : List LogEntry) (s : BatchState) (t : ℤ),
      s.batch ≠ [] → s.circuitOpen = true → s.circuitOpenTime = some t →
      now - t ≥ cfg.circuitBreakerOpenTimeout.getD 10000 →
      (flush cfg now transportOk during s).sendAttempt
          = some (clientSend s.batch transportOk) ∧
      (clientSend s.batch transportOk = .success →
        (flush cfg now transportOk during s).state.circuitOpen = false) ∧
      (clientSend s.batch transportOk ≠ .success →
        s.consecutiveFailures + 1 ≥ thresholdEff cfg →
        (flush cfg now transportOk during s).state.circuitOpen = true ∧
        (flush cfg now transportOk during s).state.circuitOpenTime = some now)) ∧
    (∀ evs : List BatchEv,
      (run cfg evs).state.circuitOpen = true →
      (run cfg evs).state.consecutiveFailures ≥ thresholdEff cfg) := by
  refine ⟨?_, ?_, ?_, ?_⟩
  · intro now transportOk during s hthrew hcf
    rcases flush_case_split cfg now transportOk s with hb | ⟨hb, hgate⟩ |
        ⟨hb, hgate, hcs⟩ | ⟨hb, hgate, hcs⟩
    · rw [flush_empty cfg now transportOk during s hb] at hthrew
      exact absurd hthrew (by simp)
    · rw [flush_drop cfg now transportOk during s hb hgate] at hthrew
      exact absurd hthrew (by simp)
    · obtain ⟨-, hth, -⟩ := flush_success_fields cfg now transportOk during s hb hgate hcs
      rw [hth] at hthrew
      exact absurd hthrew (by simp)
    · obtain ⟨-, -, -, -, -, hcf', -, -, -, -, -, -, -, -, hiff, htime⟩ :=
        flush_fail_fields cfg now transportOk during s hb hgate hcs
      rw [hcf'] at hcf
      exact ⟨hiff.mpr hcf, htime hcf⟩
  · intro now transportOk during s hb ho htime
    have hgate : (isCircuitOpen cfg now s).1 = true := by
      unfold isCircuitOpen
      rw [if_neg (by rw [ho]; exact fun h => by cases h)]
      cases hot : s.circuitOpenTime with
      | none => simp
      | some t =>
          have := htime t (by rw [hot]; rfl)
          simp only []
          rw [if_neg (by omega)]
    exact flush_drop cfg now transportOk during s hb hgate
  · intro now transportOk during s t hb ho hot htime
    have hgate : (isCircuitOpen cfg now s).1 = false := by
      unfold isCircuitOpen
      rw [if_neg (by rw [ho]; exact fun h => by cases h), hot]
      simp [htime]
    by_cases hcs : clientSend s.batch transportOk = .success
    · obtain ⟨-, -, -, hsa, -, -, -, hoc, -⟩ :=
        flush_success_fields cfg now transportOk during s hb hgate hcs
      exact ⟨by rw [hsa, hcs], fun _ => hoc, fun hne => absurd hcs hne⟩
    · obtain ⟨-, -, -, hsa, -, -, -, -, -, -, -, -, -, -, hiff, htm⟩ :=
        flush_fail_fields cfg now transportOk during s hb hgate hcs
      exact ⟨hsa, fun hc => absurd hc hcs, fun _ hth => ⟨hiff.mpr hth, htm hth⟩⟩
  · intro evs
    exact cInv_foldl cfg evs ⟨initialState cfg, [], 0, []⟩ (by intro hx; cases hx)

/-- The backoff-delay invariant: the next retry delay stays within
`[0, maxRetryDelay ?? 60000]`. -/
def DInv (cfg : BatchConfig) (s : BatchState) : Prop :=
  0 ≤ s.nextRetryDelay ∧ s.nextRetryDelay ≤ maxDelayEff cfg

theorem calculateNextRetryDelay_bounds (cfg : BatchConfig) (d : ℤ)
    (hm : 1 ≤ multiplierEff cfg) (hd0 : 0 ≤ d) (hdm : d ≤ maxDelayEff cfg) :
    d ≤ calculateNextRetryDelay cfg d ∧
    calculateNextRetryDelay cfg d ≤ maxDelayEff cfg := by
  unfold calculateNextRetryDelay
  constructor
  · apply le_min
    · have := mul_le_mul_of_nonneg_left hm hd0
      simpa [multiplierEff] using this
    · exact hdm
  · exact min_le_right _ _

theorem dInv_flush (cfg : BatchConfig) (now : ℤ) (transportOk : Bool)
    (during : List LogEntry) (s : BatchState)
    (hi : 0 < initialDelayEff cfg) (him : initialDelayEff cfg ≤ maxDelayEff cfg)
    (hm : 1 ≤ multiplierEff cfg) (h : DInv cfg s) :
    DInv cfg (flush cfg now transportOk during s).state := by
  rcases flush_case_split cfg now transportOk s with hb | ⟨hb, hgate⟩ |
      ⟨hb, hgate, hcs⟩ | ⟨hb, hgate, hcs⟩
  · rw [flush_empty cfg now transportOk during s hb]; exact h
  · rw [flush_drop cfg now transportOk during s hb hgate]; exact h
  · obtain ⟨-, -, -, -, -, -, hd, -⟩ :=
      flush_success_fields cfg now transportOk during s hb hgate hcs
    exact ⟨by rw [hd]; exact le_of_lt hi, by rw [hd]; exact him⟩
  · obtain ⟨-, -, -, -, -, -, hd, -⟩ :=
      flush_fail_fields cfg now transportOk during s hb hgate hcs
    refine ⟨?_, ?_⟩
    · rw [hd]
      unfold calculateNextRetryDelay
      apply le_min
      · exact mul_nonneg h.1 (le_trans zero_le_one hm)
      · exact le_of_lt (lt_of_lt_of_le hi him)
    · rw [hd]
      unfold calculateNextRetryDelay
      exact min_le_right _ _

theorem dInv_addLogEntry (cfg : BatchConfig) (now : ℤ) (transportOk : Bool)
    (during : List LogEntry) (e : LogEntry) (s : BatchState) (r : AddResult)
    (hi : 0 < initialDelayEff cfg) (him : initialDelayEff cfg ≤ maxDelayEff cfg)
    (hm : 1 ≤ multiplierEff cfg) (h : DInv cfg s)
    (hr : addLogEntry cfg now transportOk during e s = .ok r) :
    DInv cfg r.state := by
  have hpush : DInv cfg (pushState e s) := h
  by_cases hst : s.stopped = true
  · rw [addLogEntry_stopped_eq cfg now transportOk during e s hst] at hr
    cases hr
  · have hst' : s.stopped = false := by simpa using hst
    by_cases hcond : (s.batch ++ [e]).length ≥ cfg.maxBatchSize ∨
        getEstimatedMemoryUsage (s.batch ++ [e]) ≥ cfg.maxMemoryUsage
    · rw [addLogEntry_trigger_eq cfg now transportOk during e s hst' hcond] at hr
      cases hr
      exact dInv_flush cfg now transportOk during (pushState e s) hi him hm hpush
    · push_neg at hcond
      rw [addLogEntry_noTrigger_eq cfg now transportOk during e s hst'
        (by omega) (by omega)] at hr
      cases hr
      exact hpush

theorem dInv_runStep (cfg : BatchConfig) (acc : RunResult) (ev : BatchEv)
    (hi : 0 < initialDelayEff cfg) (him : initialDelayEff cfg ≤ maxDelayEff cfg)
    (hm : 1 ≤ multiplierEff cfg) (h : DInv cfg acc.state) :
    DInv cfg (runStep cfg acc ev).state := by
  cases ev with
  | add e now transportOk during =>
      simp only [runStep]
      cases hr : addLogEntry cfg now transportOk during e acc.state with
      | error u => exact h
      | ok r => exact dInv_addLogEntry cfg now transportOk during e acc.state r hi him hm h hr
  | flushCall now transportOk during =>
      simp only [runStep]
      exact dInv_flush cfg now transportOk during acc.state hi him hm h

theorem dInv_foldl (cfg : BatchConfig) (evs : List BatchEv) (acc : RunResult)
    (hi : 0 < initialDelayEff cfg) (him : initialDelayEff cfg ≤ maxDelayEff cfg)
    (hm : 1 ≤ multiplierEff cfg) (h : DInv cfg acc.state) :
    DInv cfg (List.foldl (runStep cfg) acc evs).state := by
  induction evs generalizing acc with
  | nil => exact h
  | cons ev rest ih =>
      exact ih (runStep cfg acc ev) (dInv_runStep cfg acc ev hi him hm h)

/-- Claim C3: on every successful flush `consecutiveFailures` resets to 0
and `nextRetryDelay` resets to the effective initial retry delay; on
every failed flush `consecutiveFailures` increments by one and
`nextRetryDelay` becomes `min(nextRetryDelay * multiplier, maxDelay)`;
the delay update is non-decreasing whenever the multiplier is at least 1
and the current delay is non-negative and within the maximum; and in
every run of a configuration whose effective values satisfy
`0 < initialRetryDelay ≤ maxRetryDelay` and `multiplier ≥ 1` (which a
validated configuration with `retryBackoffMultiplier > 1` does satisfy),
`nextRetryDelay` stays within `[0, maxRetryDelay]` — in particular it
never exceeds `maxRetryDelay`. -/
theorem backoff (cfg : BatchConfig) :
    (∀ (now : ℤ) (transportOk : Bool) (during : List LogEntry) (s : BatchState),
      (flush cfg now transportOk during s).sent.isSome = true →
      (flush cfg now transportOk during s).state.consecutiveFailures = 0 ∧
      (flush cfg now transportOk during s).state.nextRetryDelay = initialDelayEff cfg) ∧
    (∀ (now : ℤ) (transportOk : Bool) (during : List LogEntry) (s : BatchState),
      (flush cfg now transportOk during s).threw = true →
      (flush cfg now transportOk during s).state.consecutiveFailures
          = s.consecutiveFailures + 1 ∧
      (flush cfg now transportOk during s).state.nextRetryDelay
          = min (s.nextRetryDelay * multiplierEff cfg) (maxDelayEff cfg)) ∧
    (1 ≤ multiplierEff cfg → ∀ d : ℤ, 0 ≤ d → d ≤ maxDelayEff cfg →
      d ≤ calculateNextRetryDelay cfg d ∧
      calculateNextRetryDelay cfg d ≤ maxDelayEff cfg) ∧
    (0 < initialDelayEff cfg → initialDelayEff cfg ≤ maxDelayEff cfg →
      1 ≤ multiplierEff cfg → ∀ evs : List BatchEv,
      0 ≤ (run cfg evs).state.nextRetryDelay ∧
      (run cfg evs).state.nextRetryDelay ≤ maxDelayEff cfg) := by
  refine ⟨?_, ?_, ?_, ?_⟩
  · intro now transportOk during s hsome
    rcases flush_case_split cfg now transportOk s with hb | ⟨hb, hgate⟩ |
        ⟨hb, hgate, hcs⟩ | ⟨hb, hgate, hcs⟩
    · rw [flush_empty cfg now transportOk during s hb] at hsome
      exact absurd hsome (by simp)
    · rw [flush_drop cfg now transportOk during s hb hgate] at hsome
      exact absurd hsome (by simp)
    · obtain ⟨-, -, -, -, -, hcf, hd, -⟩ :=
        flush_success_fields cfg now transportOk during s hb hgate hcs
      exact ⟨hcf, hd⟩
    · obtain ⟨hsent, -⟩ :=
        flush_fail_fields cfg now transportOk during s hb hgate hcs
      rw [hsent] at hsome
      exact absurd hsome (by simp)
  · intro now transportOk during s hthrew
    rcases flush_case_split cfg now transportOk s with hb | ⟨hb, hgate⟩ |
        ⟨hb, hgate, hcs⟩ | ⟨hb, hgate, hcs⟩
    · rw [flush_empty cfg now transportOk during s hb] at hthrew
      exact absurd hthrew (by simp)
    · rw [flush_drop cfg now transportOk during s hb hgate] at hthrew
      exact absurd hthrew (by simp)
    · obtain ⟨-, hth, -⟩ :=
        flush_success_fields cfg now transportOk during s hb hgate hcs
      rw [hth] at hthrew
      exact absurd hthrew (by simp)
    · obtain ⟨-, -, -, -, -, hcf, hd, -⟩ :=
        flush_fail_fields cfg now transportOk during s hb hgate hcs
      exact ⟨hcf, hd⟩
  · intro hm d hd0 hdm
    exact calculateNextRetryDelay_bounds cfg d hm hd0 hdm
  · intro hi him hm evs
    have h0 : DInv cfg (initialState cfg) := by
      constructor
      · exact le_of_lt hi
      · exact him
    exact dInv_foldl cfg evs ⟨initialState cfg, [], 0, []⟩ hi him hm h0

/-- Per-flush entry accounting: when nothing is dropped, what a
successful send delivered plus what remains pending equals what was
pending before plus what was appended during the awaited send. -/
theorem flush_join (cfg : BatchConfig) (now : ℤ) (transportOk : Bool)
    (during : List LogEntry) (s : BatchState)
    (h0 : (flush cfg now transportOk during s).dropped = 0) :
    ((flush cfg now transportOk during s).sent.getD [])
        ++ (flush cfg now transportOk during s).state.batch
      = s.batch ++
        (if (flush cfg now transportOk during s).sendAttempt.isSome
          then during else []) := by
  rcases flush_case_split cfg now transportOk s with hb | ⟨hb, hgate⟩ |
      ⟨hb, hgate, hcs⟩ | ⟨hb, hgate, hcs⟩
  · rw [flush_empty cfg now transportOk during s hb]
    simp
  · rw [flush_drop cfg now transportOk during s hb hgate] at h0
    simp only [] at h0
    exact absurd (List.length_eq_zero.mp h0) hb
  · obtain ⟨hsent, -, -, hsa, hbatch, -⟩ :=
      flush_success_fields cfg now transportOk during s hb hgate hcs
    rw [hsent, hsa, hbatch]
    simp
  · obtain ⟨hsent, -, -, hsa, hbatch, -⟩ :=
      flush_fail_fields cfg now transportOk during s hb hgate hcs
    rw [hsent, hsa, hbatch]
    simp

/-- The order-preservation invariant of a run: successful sends in send
order, followed by the still-pending buffer, spell out exactly the
accepted entries in acceptance order. -/
def OInv (r : RunResult) : Prop :=
  r.sent.flatten ++ r.state.batch = r.accepted

theorem runStep_dropped_mono (cfg : BatchConfig) (acc : RunResult)
    (ev : BatchEv) : acc.dropped ≤ (runStep cfg acc ev).dropped := by
  cases ev with
  | add e now transportOk during =>
      simp only [runStep]
      cases hr : addLogEntry cfg now transportOk during e acc.state with
      | error u => exact le_refl _
      | ok r => exact Nat.le_add_right _ _
  | flushCall now transportOk during =>
      simp only [runStep]
      exact Nat.le_add_right _ _

theorem foldl_dropped_mono (cfg : BatchConfig) (evs : List BatchEv)
    (acc : RunResult) :
    acc.dropped ≤ (List.foldl (runStep cfg) acc evs).dropped := by
  induction evs generalizing acc with
  | nil => exact le_refl _
  | cons ev rest ih =>
      exact le_trans (runStep_dropped_mono cfg acc ev) (ih (runStep cfg acc ev))

theorem runStep_OInv (cfg : BatchConfig) (acc : RunResult) (ev : BatchEv)
    (h : OInv acc) (hd : (runStep cfg acc ev).dropped = acc.dropped) :
    OInv (runStep cfg acc ev) := by
  cases ev with
  | flushCall now transportOk during =>
      simp only [runStep] at hd ⊢
      have hd0 : (flush cfg now transportOk during acc.state).dropped = 0 := by omega
      have hj := flush_join cfg now transportOk during acc.state hd0
      unfold OInv at h ⊢
      simp only []
      cases hsent : (flush cfg now transportOk during acc.state).sent with
      | none =>
          rw [hsent] at hj
          simp only [Option.getD_none, List.nil_append] at hj
          simp only [hsent, Option.toList_none, List.append_nil]
          rw [hj, ← List.append_assoc, h]
      | some b =>
          rw [hsent] at hj
          simp only [Option.getD_some] at hj
          simp only [hsent, Option.toList_some]
          rw [List.flatten_append, List.flatten_cons, List.flatten_nil, List.append_nil]
          rw [List.append_assoc, hj, ← List.append_assoc, h]
  | add e now transportOk during =>
      simp only [runStep] at hd ⊢
      cases hr : addLogEntry cfg now transportOk during e acc.state with
      | error u => exact h
      | ok r =>
          rw [hr] at hd
          simp only [] at hd
          have hr0 : r.dropped = 0 := by omega
          by_cases hst : acc.state.stopped = true
          · rw [addLogEntry_stopped_eq cfg now transportOk during e acc.state hst] at hr
            cases hr
          · have hst' : acc.state.stopped = false := by simpa using hst
            by_cases hcond : (acc.state.batch ++ [e]).length ≥ cfg.maxBatchSize ∨
                getEstimatedMemoryUsage (acc.state.batch ++ [e]) ≥ cfg.maxMemoryUsage
            · rw [addLogEntry_trigger_eq cfg now transportOk during e acc.state hst' hcond] at hr
              cases hr
              simp only [] at hr0 ⊢
              have hj := flush_join cfg now transportOk during (pushState e acc.state) hr0
              unfold OInv at h ⊢
              simp only []
              have hpb : (pushState e acc.state).batch = acc.state.batch ++ [e] := rfl
              rw [hpb] at hj
              cases hsent : (flush cfg now transportOk during (pushState e acc.state)).sent with
              | none =>
                  rw [hsent] at hj
                  simp only [Option.getD_none, List.nil_append] at hj
                  simp only [hsent, Option.toList_none, List.append_nil]
                  rw [hj]
                  simp only [← List.append_assoc]
                  rw [h]
              | some b =>
                  rw [hsent] at hj
                  simp only [Option.getD_some] at hj
                  simp only [hsent, Option.toList_some]
                  rw [List.flatten_append, List.flatten_cons, List.flatten_nil,
                    List.append_nil, List.append_assoc, hj]
                  simp only [← List.append_assoc]
                  rw [h]
            · push_neg at hcond
              rw [addLogEntry_noTrigger_eq cfg now transportOk during e acc.state hst'
                (by omega) (by omega)] at hr
              cases hr
              unfold OInv at h ⊢
              simp only [Option.toList_none, List.append_nil, Option.isSome_none,
                Bool.false_eq_true, if_false]
              have hpb : (pushState e acc.state).batch = acc.state.batch ++ [e] := rfl
              rw [hpb, ← List.append_assoc, h]

theorem foldl_OInv (cfg : BatchConfig) (evs : List BatchEv) (acc : RunResult)
    (h : OInv acc)
    (hd : (List.foldl (runStep cfg) acc evs).dropped = acc.dropped) :
    OInv (List.foldl (runStep cfg) acc evs) := by
  induction evs generalizing acc with
  | nil => exact h
  | cons ev rest ih =>
      have m1 := runStep_dropped_mono cfg acc ev
      have m2 := foldl_dropped_mono cfg rest (runStep cfg acc ev)
      simp only [List.foldl_cons] at hd ⊢
      have heq : (runStep cfg acc ev).dropped = acc.dropped := by omega
      exact ih (runStep cfg acc ev) (runStep_OInv cfg acc ev h heq) (by omega)

/-- Claim C1: in any run with no circuit-open drops, the concatenation in
send order of the entry sequences delivered by the transport's successful
`sendLogBatch` calls, followed by the entries still pending, equals the
sequence of accepted entries in acceptance order (so the delivered
concatenation is always a prefix of the `addLogEntry` order, and equals
it once the buffer is empty); moreover the entries of a failed flush are
restored to the front of the pending buffer, in their original order,
ahead of any entries added after the drain. -/
theorem order_preservation :
    (∀ (cfg : BatchConfig) (evs : List BatchEv),
      (run cfg evs).dropped = 0 →
      (run cfg evs).sent.flatten ++ (run cfg evs).state.batch = (run cfg evs).accepted) ∧
    (∀ (cfg : BatchConfig) (now : ℤ) (transportOk : Bool)
        (during : List LogEntry) (s : BatchState),
      (flush cfg now transportOk during s).threw = true →
      (flush cfg now transportOk during s).state.batch = s.batch ++ during) := by
  constructor
  · intro cfg evs h0
    exact foldl_OInv cfg evs ⟨initialState cfg, [], 0, []⟩ rfl h0
  · intro cfg now transportOk during s hthrew
    rcases flush_case_split cfg now transportOk s with hb | ⟨hb, hgate⟩ |
        ⟨hb, hgate, hcs⟩ | ⟨hb, hgate, hcs⟩
    · rw [flush_empty cfg now transportOk during s hb] at hthrew
      exact absurd hthrew (by simp)
    · rw [flush_drop cfg now transportOk during s hb hgate] at hthrew
      exact absurd hthrew (by simp)
    · obtain ⟨-, hth, -⟩ :=
        flush_success_fields cfg now transportOk during s hb hgate hcs
      rw [hth] at hthrew
      exact absurd hthrew (by simp)
    · obtain ⟨-, -, -, -, hbatch, -⟩ :=
        flush_fail_fields cfg now transportOk during s hb hgate hcs
      exact hbatch

theorem flush_state_stopped (cfg : BatchConfig) (now : ℤ) (transportOk : Bool)
    (during : List LogEntry) (s : BatchState) :
    (flush cfg now transportOk during s).state.stopped = s.stopped := by
  rcases flush_case_split cfg now transportOk s with hb | ⟨hb, hgate⟩ |
      ⟨hb, hgate, hcs⟩ | ⟨hb, hgate, hcs⟩
  · rw [flush_empty cfg now transportOk during s hb]
  · rw [flush_drop cfg now transportOk during s hb hgate]
  · exact (flush_success_fields cfg now transportOk during s hb hgate hcs).2.2.2.2.2.2.2.2.2.2.2.2.1
  · exact (flush_fail_fields cfg now transportOk during s hb hgate hcs).2.2.2.2.2.2.2.2.2.2.2.2.1

/-- The circuit gate reads only the circuit fields, so its verdict agrees
on states that share them. -/
theorem isCircuitOpen_fst_congr (cfg : BatchConfig) (now : ℤ)
    (s t : BatchState) (h1 : s.circuitOpen = t.circuitOpen)
    (h2 : s.circuitOpenTime = t.circuitOpenTime) :
    (isCircuitOpen cfg now s).1 = (isCircuitOpen cfg now t).1 := by
  unfold isCircuitOpen
  rw [h1, h2]
  by_cases ho : t.circuitOpen = false
  · simp [ho]
  · simp only [ho, if_false]
    cases hot : t.circuitOpenTime with
    | none => simp
    | some u =>
        by_cases hc : now - u ≥ cfg.circuitBreakerOpenTimeout.getD 10000
        · simp [hc]
        · simp [hc]

theorem stopped_update_self (s : BatchState) (h : s.stopped = true) :
    ({ s with stopped := true } : BatchState) = s := by
  cases s
  simp_all

theorem clientClosed_update_self (s : BatchState) (h : s.clientClosed = true) :
    ({ s with clientClosed := true } : BatchState) = s := by
  cases s
  simp_all

/-- Claim C6: stopping a client with a non-empty pending buffer of at
most 100 entries, a closed circuit gate and a transport that accepts the
send results in exactly one successful `sendLogBatch` call carrying
exactly the pending entries, an empty pending buffer, a closed transport,
and no error escaping; `stop` always completes (any flush error is
swallowed) and always leaves the client stopped with the transport
closed; after `stop`, every `addLogEntry` call fails fast with the
stopped error; and a second `stop` is safe — it changes nothing, sends
nothing and throws nothing. -/
theorem graceful_stop (cfg : BatchConfig) :
    (∀ (now : ℤ) (s : BatchState), s.batch ≠ [] → s.batch.length ≤ 100 →
      (isCircuitOpen cfg now s).1 = false →
      (stop cfg now true s).sent = some s.batch ∧
      (stop cfg now true s).state.batch = [] ∧
      (stop cfg now true s).state.clientClosed = true ∧
      (stop cfg now true s).state.stopped = true ∧
      (stop cfg now true s).flushThrew = false) ∧
    (∀ (now : ℤ) (transportOk : Bool) (s : BatchState),
      (stop cfg now transportOk s).state.stopped = true ∧
      (stop cfg now transportOk s).state.clientClosed = true) ∧
    (∀ (now : ℤ) (transportOk : Bool) (during : List LogEntry) (e : LogEntry)
        (s : BatchState), s.stopped = true →
      addLogEntry cfg now transportOk during e s = .error ()) ∧
    (∀ (now now2 : ℤ) (transportOk transportOk2 : Bool) (s : BatchState),
      (stop cfg now transportOk s).state.batch = [] →
      (stop cfg now2 transportOk2 (stop cfg now transportOk s).state).state
          = (stop cfg now transportOk s).state ∧
      (stop cfg now2 transportOk2 (stop cfg now transportOk s).state).sent = none ∧
      (stop cfg now2 transportOk2 (stop cfg now transportOk s).state).flushThrew
          = false) := by
  have hstop_flags : ∀ (now : ℤ) (transportOk : Bool) (s : BatchState),
      (stop cfg now transportOk s).state.stopped = true ∧
      (stop cfg now transportOk s).state.clientClosed = true := by
    intro now transportOk s
    unfold stop
    by_cases hb : ({ s with stopped := true } : BatchState).batch = []
    · rw [if_pos hb]
      exact ⟨rfl, rfl⟩
    · rw [if_neg hb]
      constructor
      · show (flush cfg now transportOk []
          ({ s with stopped := true } : BatchState)).state.stopped = true
        rw [flush_state_stopped]
      · rfl
  refine ⟨?_, hstop_flags, ?_, ?_⟩
  · intro now s hb hlen hgate
    have hb1 : ({ s with stopped := true } : BatchState).batch ≠ [] := hb
    have hgate1 : (isCircuitOpen cfg now ({ s with stopped := true } : BatchState)).1
        = false := by
      rw [isCircuitOpen_fst_congr cfg now ({ s with stopped := true } : BatchState) s
        rfl rfl]
      exact hgate
    have hsend : clientSend ({ s with stopped := true } : BatchState).batch true
        = .success := by
      show clientSend s.batch true = .success
      unfold clientSend
      rw [if_neg (by simpa using hb), if_neg (by omega), if_pos rfl]
    obtain ⟨hsent, hth, -, -, hbatch, -⟩ :=
      flush_success_fields cfg now true [] ({ s with stopped := true } : BatchState)
        hb1 hgate1 hsend
    unfold stop
    rw [if_neg hb1]
    refine ⟨hsent, by simpa using hbatch, rfl, ?_, hth⟩
    show (flush cfg now true [] ({ s with stopped := true } : BatchState)).state.stopped
        = true
    rw [flush_state_stopped]
  · intro now transportOk during e s h
    exact addLogEntry_stopped_eq cfg now transportOk during e s h
  · intro now now2 transportOk transportOk2 s hbatch
    obtain ⟨hst, hcl⟩ := hstop_flags now transportOk s
    have key : ∀ s' : BatchState, s'.stopped = true → s'.clientClosed = true →
        s'.batch = [] → stop cfg now2 transportOk2 s' = ⟨s', none, 0, false⟩ := by
      intro s' h1 h2 h3
      unfold stop
      rw [stopped_update_self s' h1, if_pos h3, clientClosed_update_self s' h2]
    rw [key (stop cfg now transportOk s).state hst hcl hbatch]
    exact ⟨rfl, rfl, rfl⟩

theorem strBytes_append (a b : String) :
    strBytes (a ++ b) = strBytes a + strBytes b := by
  cases a with
  | mk la =>
      cases b with
      | mk lb =>
          show ((la ++ lb).map Char.utf8Size).sum = _
          simp [strBytes, List.map_append, List.sum_append]

/-- Claim C7: `addLogEntry` (when not stopped) appends the entry to the
tail of the pending buffer, increments the accepted-entries counter, and
triggers a flush exactly when the new pending count has reached
`maxBatchSize` or the estimated memory usage — 200 bytes of overhead per
entry plus the UTF-8 byte length of the payload plus the UTF-8 byte
lengths of all metadata keys and values — has reached `maxMemoryUsage`;
the code's per-pair measurement of the concatenated key and value equals
the spec's sum of their individual byte lengths; and adding to an empty
buffer (with the circuit closed and the transport willing) a single entry
whose estimated size reaches `maxMemoryUsage` triggers an immediate,
successful flush of that entry alone. -/
theorem flush_triggers (cfg : BatchConfig) :
    (∀ (now : ℤ) (transportOk : Bool) (during : List LogEntry) (e : LogEntry)
        (s : BatchState) (r : AddResult), s.stopped = false →
      addLogEntry cfg now transportOk during e s = .ok r →
      ((r.flushTriggered = true ↔
        ((s.batch ++ [e]).length ≥ cfg.maxBatchSize ∨
          getEstimatedMemoryUsage (s.batch ++ [e]) ≥ cfg.maxMemoryUsage)) ∧
        r.state.stats.entriesProcessed = s.stats.entriesProcessed + 1 ∧
        (r.flushTriggered = false → r.state.batch = s.batch ++ [e]))) ∧
    (∀ e : LogEntry, entryEstimatedSize e = entryEstimatedSizeSpec e) ∧
    (∀ (now : ℤ) (during : List LogEntry) (e : LogEntry)
        (s : BatchState) (r : AddResult), s.stopped = false → s.batch = [] →
      s.circuitOpen = false → entryEstimatedSize e ≥ cfg.maxMemoryUsage →
      addLogEntry cfg now true during e s = .ok r →
      r.flushTriggered = true ∧ r.sent = some [e]) := by
  have hproc : ∀ (now : ℤ) (transportOk : Bool) (during : List LogEntry)
      (e : LogEntry) (s : BatchState),
      (flush cfg now transportOk during (pushState e s)).state.stats.entriesProcessed
        = s.stats.entriesProcessed + 1 := by
    intro now transportOk during e s
    rcases flush_case_split cfg now transportOk (pushState e s) with hb | ⟨hb, hgate⟩ |
        ⟨hb, hgate, hcs⟩ | ⟨hb, hgate, hcs⟩
    · rw [flush_empty cfg now transportOk during (pushState e s) hb]
      rfl
    · rw [flush_drop cfg now transportOk during (pushState e s) hb hgate]
      rfl
    · rw [(flush_success_fields cfg now transportOk during (pushState e s)
        hb hgate hcs).2.2.2.2.2.2.2.2.2.2.1]
      rfl
    · rw [(flush_fail_fields cfg now transportOk during (pushState e s)
        hb hgate hcs).2.2.2.2.2.2.2.2.1]
      rfl
  refine ⟨?_, ?_, ?_⟩
  · intro now transportOk during e s r hst hr
    by_cases hcond : (s.batch ++ [e]).length ≥ cfg.maxBatchSize ∨
        getEstimatedMemoryUsage (s.batch ++ [e]) ≥ cfg.maxMemoryUsage
    · rw [addLogEntry_trigger_eq cfg now transportOk during e s hst hcond] at hr
      cases hr
      refine ⟨by simpa using hcond, ?_, by intro hx; cases hx⟩
      exact hproc now transportOk during e s
    · push_neg at hcond
      rw [addLogEntry_noTrigger_eq cfg now transportOk during e s hst
        (by omega) (by omega)] at hr
      cases hr
      constructor
      · constructor
        · intro hx
          cases hx
        · intro hor
          rcases hor with h1 | h2
          · exact absurd h1 (by omega)
          · exact absurd h2 (by omega)
      · exact ⟨rfl, fun _ => rfl⟩
  · intro e
    unfold entryEstimatedSize entryEstimatedSizeSpec
    cases e.metadata with
    | none => rfl
    | some m => simp [strBytes_append]
  · intro now during e s r hst hb hco hmem hr
    have hpb : (pushState e s).batch = [e] := by
      show s.batch ++ [e] = [e]
      rw [hb]
      rfl
    have hcond : (s.batch ++ [e]).length ≥ cfg.maxBatchSize ∨
        getEstimatedMemoryUsage (s.batch ++ [e]) ≥ cfg.maxMemoryUsage := by
      right
      rw [hb]
      simpa [getEstimatedMemoryUsage] using hmem
    rw [addLogEntry_trigger_eq cfg now true during e s hst hcond] at hr
    cases hr
    refine ⟨rfl, ?_⟩
    have hb1 : (pushState e s).batch ≠ [] := by
      rw [hpb]
      exact fun h => by cases h
    have hgate : (isCircuitOpen cfg now (pushState e s)).1 = false := by
      unfold isCircuitOpen
      rw [if_pos (by show s.circuitOpen = false; exact hco)]
    have hsend : clientSend (pushState e s).batch true = .success := by
      rw [hpb]
      unfold clientSend
      rw [if_neg (by simp), if_neg (by simp), if_pos rfl]
    obtain ⟨hsent, -⟩ :=
      flush_success_fields cfg now true during (pushState e s) hb1 hgate hsend
    rw [hsent, hpb]

/-- Claim C5 (amended): `sendLogBatch` fails with a validation error —
before any connection attempt or socket write, leaving the client state
untouched — whenever the batch has zero entries or more than 100 entries;
but when such a validation failure surfaces inside `BatchClient.flush`,
the catch block counts it exactly like a transport failure:
`consecutiveFailures` increments, `nextRetryDelay` is recomputed, and the
error counter increments. -/
theorem sendLogBatch_validation (cfg : BatchConfig) :
    (∀ (st : ClientState) (entries : List LogEntry) (w : NetWorld),
      entries.length = 0 →
      sendLogBatch st entries w = (.error .validationEmpty, st, ⟨false, false⟩)) ∧
    (∀ (st : ClientState) (entries : List LogEntry) (w : NetWorld),
      entries.length > 100 →
      sendLogBatch st entries w = (.error .validationTooMany, st, ⟨false, false⟩)) ∧
    (∀ (now : ℤ) (transportOk : Bool) (during : List LogEntry) (s : BatchState),
      (flush cfg now transportOk during s).sendAttempt = some .validationError →
      (flush cfg now transportOk during s).state.consecutiveFailures
          = s.consecutiveFailures + 1 ∧
      (flush cfg now transportOk during s).state.nextRetryDelay
          = calculateNextRetryDelay cfg s.nextRetryDelay ∧
      (flush cfg now transportOk during s).state.stats.errors
          = s.stats.errors + 1) := by
  refine ⟨?_, ?_, ?_⟩
  · intro st entries w h
    unfold sendLogBatch
    rw [if_pos h]
  · intro st entries w h
    unfold sendLogBatch
    rw [if_neg (by omega), if_pos h]
  · intro now transportOk during s hval
    rcases flush_case_split cfg now transportOk s with hb | ⟨hb, hgate⟩ |
        ⟨hb, hgate, hcs⟩ | ⟨hb, hgate, hcs⟩
    · rw [flush_empty cfg now transportOk during s hb] at hval
      exact absurd hval (by simp)
    · rw [flush_drop cfg now transportOk during s hb hgate] at hval
      exact absurd hval (by simp)
    · obtain ⟨-, -, -, hsa, -⟩ :=
        flush_success_fields cfg now transportOk during s hb hgate hcs
      rw [hsa] at hval
      cases hval
    · obtain ⟨-, -, -, -, -, hcf, hd, herr, -⟩ :=
        flush_fail_fields cfg now transportOk during s hb hgate hcs
      exact ⟨hcf, hd, herr⟩

/-- Claim C9 (amended): while the circuit is open, entries continue to be
accepted — `addLogEntry` on a non-stopped client never throws for circuit
reasons and still bumps the accepted-entries counter — and are silently
dropped at flush time: the flush empties the buffer, makes no transport
call and throws no error, reporting the dropped count only through the
console warning (reflected here as the `dropped` result); `BatchStats`
has no drop counter and every statistics field is unchanged by the
drop. -/
theorem drop_observability (cfg : BatchConfig) :
    (∀ (now : ℤ) (transportOk : Bool) (during : List LogEntry) (e : LogEntry)
        (s : BatchState) (r : AddResult), s.stopped = false →
      addLogEntry cfg now transportOk during e s = .ok r →
      r.state.stats.entriesProcessed = s.stats.entriesProcessed + 1) ∧
    (∀ (now : ℤ) (transportOk : Bool) (during : List LogEntry) (e : LogEntry)
        (s : BatchState), s.stopped = false →
      (addLogEntry cfg now transportOk during e s).isOk = true) ∧
    (∀ (now : ℤ) (transportOk : Bool) (during : List LogEntry) (s : BatchState),
      s.batch ≠ [] → (isCircuitOpen cfg now s).1 = true →
      (flush cfg now transportOk during s).state.batch = [] ∧
      (flush cfg now transportOk during s).sendAttempt = none ∧
      (flush cfg now transportOk during s).threw = false ∧
      (flush cfg now transportOk during s).dropped = s.batch.length ∧
      (flush cfg now transportOk during s).state.stats = s.stats) := by
  have hproc : ∀ (now : ℤ) (transportOk : Bool) (during : List LogEntry)
      (e : LogEntry) (s : BatchState),
      (flush cfg now transportOk during (pushState e s)).state.stats.entriesProcessed
        = s.stats.entriesProcessed + 1 := by
    intro now transportOk during e s
    rcases flush_case_split cfg now transportOk (pushState e s) with hb | ⟨hb, hgate⟩ |
        ⟨hb, hgate, hcs⟩ | ⟨hb, hgate, hcs⟩
    · rw [flush_empty cfg now transportOk during (pushState e s) hb]
      rfl
    · rw [flush_drop cfg now transportOk during (pushState e s) hb hgate]
      rfl
    · rw [(flush_success_fields cfg now transportOk during (pushState e s)
        hb hgate hcs).2.2.2.2.2.2.2.2.2.2.1]
      rfl
    · rw [(flush_fail_fields cfg now transportOk during (pushState e s)
        hb hgate hcs).2.2.2.2.2.2.2.2.1]
      rfl
  refine ⟨?_, ?_, ?_⟩
  · intro now transportOk during e s r hst hr
    by_cases hcond : (s.batch ++ [e]).length ≥ cfg.maxBatchSize ∨
        getEstimatedMemoryUsage (s.batch ++ [e]) ≥ cfg.maxMemoryUsage
    · rw [addLogEntry_trigger_eq cfg now transportOk during e s hst hcond] at hr
      cases hr
      exact hproc now transportOk during e s
    · push_neg at hcond
      rw [addLogEntry_noTrigger_eq cfg now transportOk during e s hst
        (by omega) (by omega)] at hr
      cases hr
      rfl
  · intro now transportOk during e s hst
    by_cases hcond : (s.batch ++ [e]).length ≥ cfg.maxBatchSize ∨
        getEstimatedMemoryUsage (s.batch ++ [e]) ≥ cfg.maxMemoryUsage
    · rw [addLogEntry_trigger_eq cfg now transportOk during e s hst hcond]
      rfl
    · push_neg at hcond
      rw [addLogEntry_noTrigger_eq cfg now transportOk during e s hst
        (by omega) (by omega)]
      rfl
  · intro now transportOk during s hb hgate
    rw [flush_drop cfg now transportOk during s hb hgate]
    exact ⟨rfl, rfl, rfl, rfl, rfl⟩

/-- Claim C4 (amended): once the client is connected — or when the lazy
connection attempt succeeds — `ping` never throws: it returns `true`
exactly when a structured response with status `"pong"` is received, and
converts a send failure, a read timeout or a malformed response into
`false`; but a connection failure while not yet connected propagates as a
thrown connection error rather than returning `false`, because the
`connect()` call sits outside `ping`'s try/catch. -/
theorem ping_contract :
    (∀ (st : ClientState) (w : NetWorld),
      st.connected = true ∨ w.connectOk = true →
      (ping st w).1 = .ok (w.sendOk && responseIsPong w.readOutcome)) ∧
    (∀ (st : ClientState) (w : NetWorld),
      st.connected = false → w.connectOk = false →
      (ping st w).1 = .error .connectionFailed) := by
  constructor
  · intro st w hok
    have hconn : connectIfNeeded st w
        = .ok (if st.connected then st else { st with connected := true }) := by
      unfold connectIfNeeded
      by_cases hc : st.connected = true
      · rw [if_pos hc, if_pos hc]
      · have hc' : st.connected = false := by simpa using hc
        have hw : w.connectOk = true := by
          rcases hok with h | h
          · exact absurd h hc
          · exact h
        rw [if_neg hc, if_pos hw, if_neg hc]
    unfold ping
    rw [hconn]
    by_cases hsend : w.sendOk = true
    · cases hro : w.readOutcome with
      | timeout => simp [responseIsPong, hsend]
      | badJson => simp [responseIsPong, hsend]
      | response r => simp [responseIsPong, hsend]
    · have hsend' : w.sendOk = false := by simpa using hsend
      simp [hsend']
  · intro st w hc hw
    unfold ping connectIfNeeded
    rw [if_neg (by rw [hc]; exact fun h => by cases h), if_neg (by simp [hw])]

/-- Claim C8 (amended): `authenticate` returns `true` for a Unix-socket
client without any network action; for a TCP client with a missing or
empty shared secret it fails with the configuration error before any
network action; for a TCP client with a secret it returns — once
connected, or when the lazy connection attempt succeeds — `true` exactly
when the response status is `"success"` and `false` on any other exchange
outcome including read or parse failure; but a connection failure while
not yet connected propagates as a thrown connection error, because the
`connect()` call sits outside `authenticate`'s try/catch. -/
theorem authenticate_contract :
    (∀ (st : ClientState) (w : NetWorld), st.network = .unix →
      authenticate st w = (.ok true, st, false)) ∧
    (∀ (st : ClientState) (w : NetWorld), st.network = .tcp →
      st.sharedSecret.getD "" = "" →
      authenticate st w = (.error .sharedSecretRequired, st, false)) ∧
    (∀ (st : ClientState) (w : NetWorld), st.network = .tcp →
      st.sharedSecret.getD "" ≠ "" →
      st.connected = true ∨ w.connectOk = true →
      (authenticate st w).1 = .ok (w.sendOk && responseIsSuccess w.readOutcome)) ∧
    (∀ (st : ClientState) (w : NetWorld), st.network = .tcp →
      st.sharedSecret.getD "" ≠ "" →
      st.connected = false → w.connectOk = false →
      (authenticate st w).1 = .error .connectionFailed) := by
  refine ⟨?_, ?_, ?_, ?_⟩
  · intro st w h
    unfold authenticate
    rw [if_pos (by rw [h]; exact fun hx => by cases hx)]
  · intro st w hn hs
    unfold authenticate
    rw [if_neg (by rw [hn]; exact fun hx => absurd rfl hx), if_pos hs]
  · intro st w hn hs hok
    have hconn : connectIfNeeded st w
        = .ok (if st.connected then st else { st with connected := true }) := by
      unfold connectIfNeeded
      by_cases hc : st.connected = true
      · rw [if_pos hc, if_pos hc]
      · have hc' : st.connected = false := by simpa using hc
        have hw : w.connectOk = true := by
          rcases hok with h | h
          · exact absurd h hc
          · exact h
        rw [if_neg hc, if_pos hw, if_neg hc]
    unfold authenticate
    rw [if_neg (by rw [hn]; exact fun hx => absurd rfl hx), if_neg hs, hconn]
    by_cases hsend : w.sendOk = true
    · cases hro : w.readOutcome with
      | timeout => simp [responseIsSuccess, hsend]
      | badJson => simp [responseIsSuccess, hsend]
      | response r => simp [responseIsSuccess, hsend]
    · have hsend' : w.sendOk = false := by simpa using hsend
      simp [hsend']
  · intro st w hn hs hc hw
    unfold authenticate connectIfNeeded
    rw [if_neg (by rw [hn]; exact fun hx => absurd rfl hx), if_neg hs,
      if_neg (by rw [hc]; exact fun h => by cases h), if_neg (by simp [hw])]

/-- Claim C10: when `flush` drops the pending batch because the circuit
gate is open (circuit open and the cooldown not yet elapsed, the lazy
half-open reset not firing), the only state change is that the pending
buffer becomes empty: no transport call is made (`sendAttempt = none`,
nothing is sent), nothing is restored, no error is thrown, and
`consecutiveFailures`, `nextRetryDelay`, the circuit-open flag and its
timestamp, and every `BatchStats` field keep their previous values — the
result state is literally the input state with an emptied buffer, and the
reported drop count is the discarded batch's length. -/
theorem circuit_open_drop_frame (cfg : BatchConfig) (now : ℤ)
    (transportOk : Bool) (during : List LogEntry) (s : BatchState)
    (hb : s.batch ≠ []) (ho : (isCircuitOpen cfg now s).1 = true) :
    flush cfg now transportOk during s =
      ⟨{ s with batch := [] }, none, s.batch.length, none, false⟩ :=
  flush_drop cfg now transportOk during s hb ho

/-! ## Concrete configurations, entries and states for witnesses -/

/-- `createDefaultBatchConfig` from `src/config/index.ts`. -/
def createDefaultBatchConfig : BatchConfig :=
  { maxBatchSize := 100, flushInterval := 1000, maxMemoryUsage := 512 * 1024,
    flushOnExit := true, initialRetryDelay := some 500,
    maxRetryDelay := some 30000, retryBackoffMultiplier := some 2,
    circuitBreakerFailureThreshold := some 5,
    circuitBreakerOpenTimeout := some 10000 }

def entryA : LogEntry :=
  { payload := "alpha", source := "app", entryType := 1, logLevel := 7 }

def entryB : LogEntry :=
  { payload := "beta", source := "app", entryType := 1, logLevel := 7 }

def entryC : LogEntry :=
  { payload := "gamma", source := "app", entryType := 1, logLevel := 7 }

def entryM : LogEntry :=
  { payload := "meta", source := "app",
    metadata := some [("key1", "value1"), ("key2", "value2")],
    entryType := 1, logLevel := 7 }

def cfgW2 : BatchConfig := { createDefaultBatchConfig with maxBatchSize := 2 }

def cfgW1 : BatchConfig :=
  { createDefaultBatchConfig with maxBatchSize := 1, circuitBreakerFailureThreshold := some 2 }

def cfgSmallMem : BatchConfig :=
  { createDefaultBatchConfig with maxMemoryUsage := 100 }

def sPend2 : BatchState :=
  { batch := [entryA, entryB], stopped := false, stats := initialStats,
    consecutiveFailures := 0, nextRetryDelay := 500, circuitOpen := false,
    circuitOpenTime := none, clientClosed := false }

def sFail4 : BatchState :=
  { batch := [entryA], stopped := false, stats := initialStats,
    consecutiveFailures := 4, nextRetryDelay := 500, circuitOpen := false,
    circuitOpenTime := none, clientClosed := false }

def statsOpen : BatchStats :=
  { entriesProcessed := 7, batchesSent := 2, errors := 5,
    averageBatchSize := 0, lastFlushTime := some 1 }

def sOpen : BatchState :=
  { batch := [entryA, entryB], stopped := false, stats := statsOpen,
    consecutiveFailures := 5, nextRetryDelay := 8000, circuitOpen := true,
    circuitOpenTime := some 0, clientClosed := false }

def statsOpen9 : BatchStats :=
  { entriesProcessed := 10, batchesSent := 4, errors := 2,
    averageBatchSize := 0, lastFlushTime := some 2 }

def sOpen9 : BatchState :=
  { batch := [entryA, entryB], stopped := false, stats := statsOpen9,
    consecutiveFailures := 5, nextRetryDelay := 4000, circuitOpen := true,
    circuitOpenTime := some 0, clientClosed := false }

def sDelay : BatchState :=
  { batch := [entryA], stopped := false, stats := initialStats,
    consecutiveFailures := 3, nextRetryDelay := 4000, circuitOpen := false,
    circuitOpenTime := none, clientClosed := false }

def s101 : BatchState :=
  { batch := List.replicate 101 entryA, stopped := false, stats := initialStats,
    consecutiveFailures := 1, nextRetryDelay := 1000, circuitOpen := false,
    circuitOpenTime := none, clientClosed := false }

def evsW : List BatchEv :=
  [.add entryA 0 true [], .add entryB 1 false [], .add entryC 2 true [],
    .flushCall 3 true []]

def evsOpen : List BatchEv :=
  [.add entryA 0 false [], .add entryB 1 false []]

/-- Fallback `AddResult` used to read off the payload of an `Except.ok`. -/
def dummyAdd (s : BatchState) : AddResult := ⟨s, none, 0, none, false, false⟩

def evsC5 : List BatchEv := List.replicate 100 (.add entryA 0 false [])

/-- State of a default-configured client after 100 accepted entries whose
100th add triggered one failed flush (the whole batch was restored). -/
def sC5 : BatchState := (run createDefaultBatchConfig evsC5).state

/-- Result of the 101st add: the triggered flush hands 101 entries to
`sendLogBatch`, which rejects them before the network. -/
def rC5 : AddResult :=
  (addLogEntry createDefaultBatchConfig 1 true [] entryA sC5).toOption.getD
    (dummyAdd sC5)

def rW7 : AddResult :=
  (addLogEntry cfgW2 0 true [] entryA (initialState cfgW2)).toOption.getD
    (dummyAdd (initialState cfgW2))

def rBig : AddResult :=
  (addLogEntry cfgSmallMem 0 true [] entryA (initialState cfgSmallMem)).toOption.getD
    (dummyAdd (initialState cfgSmallMem))

def rAdd9 : AddResult :=
  (addLogEntry createDefaultBatchConfig 1 true [] entryC sOpen).toOption.getD
    (dummyAdd sOpen)

/-! ## Witnesses and counterexamples -/

/-- Witness for the order-preservation theorem on the spec's own
scenario: add A, add B (flush fails, `[A, B]` restored), add C (flush
succeeds with `[A, B, C]`), plus a concrete failed flush restoring ahead
of an interleaved entry. -/
theorem order_preservation_witness :
    (run cfgW2 evsW).dropped = 0 ∧
    (run cfgW2 evsW).sent.flatten ++ (run cfgW2 evsW).state.batch
        = (run cfgW2 evsW).accepted ∧
    (flush cfgW2 0 false [entryC] sPend2).threw = true ∧
    (flush cfgW2 0 false [entryC] sPend2).state.batch
        = sPend2.batch ++ [entryC] :=
  ⟨by decide, order_preservation.1 cfgW2 evsW (by decide), by decide,
    order_preservation.2 cfgW2 0 false [entryC] sPend2 (by decide)⟩

/-- Witness for the circuit-breaker theorem: a fifth consecutive failure
opens the circuit stamped with the current time; a flush at time 5 on a
circuit opened at time 0 (timeout 10000) drops its two entries; a flush
at time 20000 closes the circuit, attempts the send, and on failure
reopens it stamped 20000; and the run with two failures under threshold
2 ends with the open flag entailing the threshold. -/
theorem circuit_breaker_witness :
    ((flush createDefaultBatchConfig 7 false [] sFail4).state.circuitOpen = true ∧
      (flush createDefaultBatchConfig 7 false [] sFail4).state.circuitOpenTime
        = some 7) ∧
    flush createDefaultBatchConfig 5 true [] sOpen
        = ⟨{ sOpen with batch := [] }, none, sOpen.batch.length, none, false⟩ ∧
    (flush createDefaultBatchConfig 20000 false [] sOpen).sendAttempt
        = some (clientSend sOpen.batch false) ∧
    ((flush createDefaultBatchConfig 20000 false [] sOpen).state.circuitOpen = true ∧
      (flush createDefaultBatchConfig 20000 false [] sOpen).state.circuitOpenTime
        = some 20000) ∧
    (run cfgW1 evsOpen).state.consecutiveFailures ≥ thresholdEff cfgW1 :=
  ⟨(circuit_breaker createDefaultBatchConfig).1 7 false [] sFail4
      (by decide) (by decide),
    (circuit_breaker createDefaultBatchConfig).2.1 5 true [] sOpen
      (by decide) (by decide)
      (by intro t ht
          have ht0 : 0 = t := by simpa [sOpen] using ht
          subst ht0
          decide),
    ((circuit_breaker createDefaultBatchConfig).2.2.1 20000 false [] sOpen 0
      (by decide) (by decide) (by decide) (by decide)).1,
    ((circuit_breaker createDefaultBatchConfig).2.2.1 20000 false [] sOpen 0
      (by decide) (by decide) (by decide) (by decide)).2.2
      (by decide) (by decide),
    (circuit_breaker cfgW1).2.2.2 evsOpen (by decide)⟩

/-- Witness for the backoff theorem: a success resets failure count and
delay; a failure increments and doubles up to the cap; the step bound at
delay 500; and the run bound on a concrete trace. -/
theorem backoff_witness :
    ((flush createDefaultBatchConfig 9 true [] sDelay).state.consecutiveFailures = 0 ∧
      (flush createDefaultBatchConfig 9 true [] sDelay).state.nextRetryDelay
        = initialDelayEff createDefaultBatchConfig) ∧
    ((flush createDefaultBatchConfig 9 false [] sDelay).state.consecutiveFailures
        = sDelay.consecutiveFailures + 1 ∧
      (flush createDefaultBatchConfig 9 false [] sDelay).state.nextRetryDelay
        = min (sDelay.nextRetryDelay * multiplierEff createDefaultBatchConfig)
            (maxDelayEff createDefaultBatchConfig)) ∧
    ((500 : ℤ) ≤ calculateNextRetryDelay createDefaultBatchConfig 500 ∧
      calculateNextRetryDelay createDefaultBatchConfig 500
        ≤ maxDelayEff createDefaultBatchConfig) ∧
    (0 ≤ (run cfgW2 evsW).state.nextRetryDelay ∧
      (run cfgW2 evsW).state.nextRetryDelay ≤ maxDelayEff cfgW2) :=
  ⟨(backoff createDefaultBatchConfig).1 9 true [] sDelay (by decide),
    (backoff createDefaultBatchConfig).2.1 9 false [] sDelay (by decide),
    (backoff createDefaultBatchConfig).2.2.1 (by decide) 500 (by decide) (by decide),
    (backoff cfgW2).2.2.2 (by decide) (by decide) (by decide) evsW⟩

/-- Witness for the graceful-stop theorem: stopping with two pending
entries and a willing transport sends exactly those two entries, empties
the buffer and closes the transport; a stop under failure still stops and
closes; adds after stop fail fast; and a second stop is inert. -/
theorem graceful_stop_witness :
    ((stop createDefaultBatchConfig 3 true sPend2).sent = some sPend2.batch ∧
      (stop createDefaultBatchConfig 3 true sPend2).state.batch = [] ∧
      (stop createDefaultBatchConfig 3 true sPend2).state.clientClosed = true ∧
      (stop createDefaultBatchConfig 3 true sPend2).state.stopped = true ∧
      (stop createDefaultBatchConfig 3 true sPend2).flushThrew = false) ∧
    ((stop createDefaultBatchConfig 4 false sOpen).state.stopped = true ∧
      (stop createDefaultBatchConfig 4 false sOpen).state.clientClosed = true) ∧
    addLogEntry createDefaultBatchConfig 6 true [] entryC
        (stop createDefaultBatchConfig 3 true sPend2).state = .error () ∧
    ((stop createDefaultBatchConfig 8 true
        (stop createDefaultBatchConfig 3 true sPend2).state).state
        = (stop createDefaultBatchConfig 3 true sPend2).state ∧
      (stop createDefaultBatchConfig 8 true
        (stop createDefaultBatchConfig 3 true sPend2).state).sent = none ∧
      (stop createDefaultBatchConfig 8 true
        (stop createDefaultBatchConfig 3 true sPend2).state).flushThrew = false) :=
  ⟨(graceful_stop createDefaultBatchConfig).1 3 sPend2
      (by decide) (by decide) (by decide),
    (graceful_stop createDefaultBatchConfig).2.1 4 false sOpen,
    (graceful_stop createDefaultBatchConfig).2.2.1 6 true [] entryC
      (stop createDefaultBatchConfig 3 true sPend2).state (by decide),
    (graceful_stop createDefaultBatchConfig).2.2.2 3 8 true true sPend2 (by decide)⟩

/-- Witness for the flush-trigger theorem: a below-threshold add appends
without flushing; the code's and the spec's memory estimates agree on an
entry with metadata; and a single oversized entry on an empty buffer
flushes alone and successfully. -/
theorem flush_triggers_witness :
    ((rW7.flushTriggered = true ↔
        (((initialState cfgW2).batch ++ [entryA]).length ≥ cfgW2.maxBatchSize ∨
          getEstimatedMemoryUsage ((initialState cfgW2).batch ++ [entryA])
            ≥ cfgW2.maxMemoryUsage)) ∧
      rW7.state.stats.entriesProcessed
        = (initialState cfgW2).stats.entriesProcessed + 1 ∧
      (rW7.flushTriggered = false →
        rW7.state.batch = (initialState cfgW2).batch ++ [entryA])) ∧
    entryEstimatedSize entryM = entryEstimatedSizeSpec entryM ∧
    (rBig.flushTriggered = true ∧ rBig.sent = some [entryA]) :=
  ⟨(flush_triggers cfgW2).1 0 true [] entryA (initialState cfgW2) rW7
      (by decide) rfl,
    (flush_triggers createDefaultBatchConfig).2.1 entryM,
    (flush_triggers cfgSmallMem).2.2 0 [] entryA (initialState cfgSmallMem) rBig
      (by decide) (by decide) (by decide) (by decide) rfl⟩

/-- Witness for the amended batch-size-validation theorem: the empty and
oversized batches are rejected without touching the client, and a flush
of 101 pending entries counts the validation rejection as a failure. -/
theorem sendLogBatch_validation_witness :
    sendLogBatch ⟨NetworkType.unix, none, false⟩ []
        ⟨true, true, .response (some (some "ok"))⟩
      = (.error .validationEmpty, ⟨NetworkType.unix, none, false⟩, ⟨false, false⟩) ∧
    sendLogBatch ⟨NetworkType.tcp, some "secret", true⟩ (List.replicate 101 entryA)
        ⟨true, true, .response (some (some "ok"))⟩
      = (.error .validationTooMany, ⟨NetworkType.tcp, some "secret", true⟩,
          ⟨false, false⟩) ∧
    ((flush createDefaultBatchConfig 1 true [] s101).state.consecutiveFailures
        = s101.consecutiveFailures + 1 ∧
      (flush createDefaultBatchConfig 1 true [] s101).state.nextRetryDelay
        = calculateNextRetryDelay createDefaultBatchConfig s101.nextRetryDelay ∧
      (flush createDefaultBatchConfig 1 true [] s101).state.stats.errors
        = s101.stats.errors + 1) :=
  ⟨(sendLogBatch_validation createDefaultBatchConfig).1
      ⟨NetworkType.unix, none, false⟩ [] ⟨true, true, .response (some (some "ok"))⟩
      (by decide),
    (sendLogBatch_validation createDefaultBatchConfig).2.1
      ⟨NetworkType.tcp, some "secret", true⟩ (List.replicate 101 entryA)
      ⟨true, true, .response (some (some "ok"))⟩ (by decide),
    (sendLogBatch_validation createDefaultBatchConfig).2.2 1 true [] s101
      (by decide)⟩

set_option maxRecDepth 400000 in
/-- Counterexample to claim C5 as stated: starting from a fresh
default-configured client, 100 adds with a failing transport leave 100
restored entries and one counted failure; the 101st add triggers a flush
whose `sendLogBatch` call fails validation (101 > 100) before any network
action — and that validation failure increments `consecutiveFailures`
from 1 to 2, doubles `nextRetryDelay` from 1000 to 2000 and increments
the error counter, contradicting "such a validation failure never affects
circuit-breaker or backoff state". -/
theorem sendLogBatch_validation_counterexample :
    sC5.consecutiveFailures = 1 ∧ sC5.nextRetryDelay = 1000 ∧
    sC5.batch.length = 100 ∧ sC5.stats.errors = 1 ∧
    addLogEntry createDefaultBatchConfig 1 true [] entryA sC5 = .ok rC5 ∧
    rC5.sendAttempt = some .validationError ∧
    rC5.state.consecutiveFailures = 2 ∧
    rC5.state.nextRetryDelay = 2000 ∧
    rC5.state.stats.errors = 2 :=
  ⟨by decide, by decide, by decide, by decide, rfl, by decide, by decide,
    by decide, by decide⟩

/-- Witness for the amended drop-observability theorem: an add on a
client with an open circuit is accepted and counted, and a flush at time
5 on a circuit opened at time 0 silently drops both entries with every
statistics field unchanged. -/
theorem drop_observability_witness :
    rAdd9.state.stats.entriesProcessed = sOpen.stats.entriesProcessed + 1 ∧
    (addLogEntry createDefaultBatchConfig 1 true [] entryC sOpen).isOk = true ∧
    ((flush createDefaultBatchConfig 5 true [] sOpen).state.batch = [] ∧
      (flush createDefaultBatchConfig 5 true [] sOpen).sendAttempt = none ∧
      (flush createDefaultBatchConfig 5 true [] sOpen).threw = false ∧
      (flush createDefaultBatchConfig 5 true [] sOpen).dropped
        = sOpen.batch.length ∧
      (flush createDefaultBatchConfig 5 true [] sOpen).state.stats
        = sOpen.stats) :=
  ⟨(drop_observability createDefaultBatchConfig).1 1 true [] entryC sOpen rAdd9
      (by decide) rfl,
    (drop_observability createDefaultBatchConfig).2.1 1 true [] entryC sOpen
      (by decide),
    (drop_observability createDefaultBatchConfig).2.2 5 true [] sOpen
      (by decide) (by decide)⟩

/-- Counterexample to claim C9 as stated: a circuit-open flush at time 3
drops two entries, yet the statistics snapshot is completely unchanged —
`BatchStats` has no drop counter and no field records the drop, so the
drop is reported only through a console warning, not through the stats
snapshot. -/
theorem drop_observability_counterexample :
    (flush createDefaultBatchConfig 3 true [] sOpen9).dropped = 2 ∧
    (flush createDefaultBatchConfig 3 true [] sOpen9).sent = none ∧
    (flush createDefaultBatchConfig 3 true [] sOpen9).threw = false ∧
    (flush createDefaultBatchConfig 3 true [] sOpen9).state.stats = sOpen9.stats :=
  ⟨rfl, rfl, rfl, rfl⟩

/-- Witness for the circuit-open drop frame theorem at a concrete open
state, with entries interleaving the (never-started) send. -/
theorem circuit_open_drop_frame_witness :
    flush createDefaultBatchConfig 4 true [entryC] sOpen9 =
      ⟨{ sOpen9 with batch := [] }, none, sOpen9.batch.length, none, false⟩ :=
  circuit_open_drop_frame createDefaultBatchConfig 4 true [entryC] sOpen9
    (by decide) (by decide)

/-- Witness for the amended ping theorem: on a connected client a pong
response yields `true`, a read timeout yields `false`, and on an
unconnected client with a failing connect the error propagates. -/
theorem ping_contract_witness :
    (ping ⟨NetworkType.unix, none, true⟩
        ⟨true, true, .response (some (some "pong"))⟩).1
      = .ok (true && responseIsPong (.response (some (some "pong")))) ∧
    (ping ⟨NetworkType.unix, none, true⟩ ⟨true, true, .timeout⟩).1
      = .ok (true && responseIsPong .timeout) ∧
    (ping ⟨NetworkType.unix, none, false⟩ ⟨false, true, .timeout⟩).1
      = .error .connectionFailed :=
  ⟨ping_contract.1 ⟨NetworkType.unix, none, true⟩
      ⟨true, true, .response (some (some "pong"))⟩ (Or.inl rfl),
    ping_contract.1 ⟨NetworkType.unix, none, true⟩ ⟨true, true, .timeout⟩
      (Or.inl rfl),
    ping_contract.2 ⟨NetworkType.unix, none, false⟩ ⟨false, true, .timeout⟩
      rfl rfl⟩

/-- Counterexample to claim C4 as stated: on a not-yet-connected client
whose connection attempt fails, `ping` does not return `false` — it
throws the connection error, because `connect()` sits outside the
try/catch. -/
theorem ping_counterexample :
    (ping ⟨NetworkType.unix, none, false⟩
        ⟨false, true, .response (some (some "pong"))⟩).1
      = .error .connectionFailed ∧
    (ping ⟨NetworkType.unix, none, false⟩
        ⟨false, true, .response (some (some "pong"))⟩).1
      ≠ .ok false :=
  ⟨rfl, fun h => by cases h⟩

/-- Witness for the amended authenticate theorem: Unix is a network-free
no-op; TCP without a secret fails fast without network action; TCP with a
secret returns the exchange verdict once connected; and a failing lazy
connect propagates. -/
theorem authenticate_contract_witness :
    authenticate ⟨NetworkType.unix, none, false⟩ ⟨false, false, .timeout⟩
      = (.ok true, ⟨NetworkType.unix, none, false⟩, false) ∧
    authenticate ⟨NetworkType.tcp, none, false⟩ ⟨true, true, .timeout⟩
      = (.error .sharedSecretRequired, ⟨NetworkType.tcp, none, false⟩, false) ∧
    (authenticate ⟨NetworkType.tcp, some "secret", true⟩
        ⟨true, true, .response (some (some "success"))⟩).1
      = .ok (true && responseIsSuccess (.response (some (some "success")))) ∧
    (authenticate ⟨NetworkType.tcp, some "secret", false⟩
        ⟨false, true, .timeout⟩).1 = .error .connectionFailed :=
  ⟨authenticate_contract.1 ⟨NetworkType.unix, none, false⟩
      ⟨false, false, .timeout⟩ rfl,
    authenticate_contract.2.1 ⟨NetworkType.tcp, none, false⟩
      ⟨true, true, .timeout⟩ rfl (by decide),
    authenticate_contract.2.2.1 ⟨NetworkType.tcp, some "secret", true⟩
      ⟨true, true, .response (some (some "success"))⟩ rfl (by decide) (Or.inl rfl),
    authenticate_contract.2.2.2 ⟨NetworkType.tcp, some "secret", false⟩
      ⟨false, true, .timeout⟩ rfl (by decide) rfl rfl⟩

/-- Counterexample to claim C8 as stated: a TCP client with a shared
secret that is not yet connected and whose connection attempt fails does
not get `false` back from `authenticate` — the connection error
propagates, because `connect()` sits outside the try/catch. -/
theorem authenticate_counterexample :
    (authenticate ⟨NetworkType.tcp, some "secret", false⟩
        ⟨false, true, .response (some (some "success"))⟩).1
      = .error .connectionFailed ∧
    (authenticate ⟨NetworkType.tcp, some "secret", false⟩
        ⟨false, true, .response (some (some "success"))⟩).1
      ≠ .ok false :=
  ⟨rfl, fun h => by cases h⟩

end LogFlux
